import Mathlib

set_option maxRecDepth 100000

/-!
Verification development for the PyBox Blackbox flight-log decoder core
(`src/pybox/decoder`).  The Python modules `stream.py`, `decoders.py`,
`headers.py`, `frames.py` and `flightlog.py` are shallowly embedded below:
byte buffers are `List Nat` (each entry a byte value), Python strings are
`List Nat` of character codes, Python ints are `Int`/`Nat` with the masking
the source performs written out explicitly, and Python floats are modelled
as exact rationals together with an explicit IEEE-754 binary64
round-to-nearest-even operation.  Stateful stream code is written against a
small free monad `M` of stream operations whose interpreter `runM` carries
the `BinaryStream` state; this mirrors each Python method call sequence
one-for-one while letting lemmas about the stream window be proved once for
the interpreter.

Conventions: the Python sentinel `EOF = -1` returned by byte/bit reads is
modelled as `none` of an `Option`; `d.getD i 0` models `data[i]` (the
Python source would raise `IndexError` past the physical end of the buffer,
which no in-window read performs).
-/

/-! ### Python string helpers (strings as lists of character codes) -/

/-- Character codes of a Lean string literal, used to write the embedded
Python strings. -/
def sLit (s : String) : List Nat := s.data.map Char.toNat

/-- Python `str.isspace` set used by `str.strip()`: space, tab, LF, VT, FF, CR. -/
def pyIsSpace (c : Nat) : Bool := c = 32 || c = 9 || c = 10 || c = 11 || c = 12 || c = 13

/-- Python `str.strip()`: drop whitespace from both ends. -/
def pyStrip (s : List Nat) : List Nat :=
  ((s.dropWhile pyIsSpace).reverse.dropWhile pyIsSpace).reverse

/-- Index of the first `:` in a line, as used by `line.find(":")`
(`none` models the return value `-1`). -/
def findColon : List Nat → Option Nat
  | [] => none
  | c :: r => if c = 58 then some 0 else (findColon r).map (· + 1)

/-- Python `a.startswith(b)`. -/
def pyStartsWith (s p : List Nat) : Bool := s.take p.length = p

/-- Python `a.endswith(b)`. -/
def pyEndsWith (s p : List Nat) : Bool := s.drop (s.length - p.length) = p ∧ p.length ≤ s.length

/-- Python `s.split(sep)` for a one-character separator: splits at every
occurrence and keeps empty pieces. -/
def pySplit (sep : Nat) : List Nat → List (List Nat)
  | [] => [[]]
  | c :: r =>
    if c = sep then [] :: pySplit sep r
    else match pySplit sep r with
      | [] => [[c]]
      | p :: ps => (c :: p) :: ps

/-- Value of a decimal digit character, `none` if not a digit. -/
def digitVal (c : Nat) : Option Nat :=
  if 48 ≤ c ∧ c ≤ 57 then some (c - 48) else none

/-- Accumulate decimal digits; `none` on any non-digit. -/
def digitsVal : List Nat → Nat → Option Nat
  | [], acc => some acc
  | c :: r, acc => match digitVal c with
    | some d => digitsVal r (acc * 10 + d)
    | none => none

/-- Python `int(s)` on an already-stripped string, modelled as `Option`:
an optional sign followed by at least one decimal digit (Python's digit
grouping underscores are not modelled; no claim exercises them).  `none`
models the `ValueError` path. -/
def pyInt (s : List Nat) : Option Int :=
  match s with
  | [] => none
  | 45 :: r => if r = [] then none else (digitsVal r 0).map (fun n => -(n : Int))
  | 43 :: r => if r = [] then none else (digitsVal r 0).map (fun n => (n : Int))
  | _ => (digitsVal s 0).map (fun n => (n : Int))

/-- Python `int(s)` where the source does not catch `ValueError`; the
claims only exercise well-formed numeric fields, malformed ones are mapped
to 0 here (the source would raise and abort the decode). -/
def pyIntTotal (s : List Nat) : Int := (pyInt s).getD 0

/-- Value of a hexadecimal digit character. -/
def hexDigitVal (c : Nat) : Option Nat :=
  if 48 ≤ c ∧ c ≤ 57 then some (c - 48)
  else if 97 ≤ c ∧ c ≤ 102 then some (c - 87)
  else if 65 ≤ c ∧ c ≤ 70 then some (c - 55)
  else none

/-- Accumulate hexadecimal digits. -/
def hexDigitsVal : List Nat → Nat → Option Nat
  | [], acc => some acc
  | c :: r, acc => match hexDigitVal c with
    | some d => hexDigitsVal r (acc * 16 + d)
    | none => none

/-- Hex digits of a string after an optional `0x` / `0X` prefix. -/
def hexBody (s : List Nat) : Option Nat :=
  match s with
  | [] => none
  | 48 :: 120 :: r => if r = [] then none else hexDigitsVal r 0
  | 48 :: 88 :: r => if r = [] then none else hexDigitsVal r 0
  | _ => hexDigitsVal s 0

/-- Python `int(s, 16)`: optional sign, optional `0x` prefix, hex digits.
`none` models the `ValueError` path. -/
def pyIntHex (s : List Nat) : Option Int :=
  match s with
  | 45 :: r => (hexBody r).map (fun n => -(n : Int))
  | 43 :: r => (hexBody r).map (fun n => (n : Int))
  | _ => (hexBody s).map (fun n => (n : Int))

/-! ### Exact IEEE-754 model for the Python floats the decoder touches -/

/-- Fuel-driven halving count (kernel-reducible, unlike `Nat.log2`). -/
def bitLenAux : Nat → Nat → Nat
  | 0, _ => 0
  | fuel + 1, n => if n = 0 then 0 else bitLenAux fuel (n / 2) + 1

/-- Bit length of a natural: `⌊log2 n⌋ + 1` for positive `n`, 0 for 0. -/
def bitLen (n : Nat) : Nat := bitLenAux n n

/-- `⌊log2 (n/d)⌋` for positive integers `n`, `d`: for `n/d ≥ 1` it is
`bitlen(⌊n/d⌋) - 1`, otherwise `-(ceil-log2 (d/n))` with
`ceil-log2 t = bitlen(⌈t⌉ - 1)`.  All arithmetic stays in `Int`/`Nat` so
that the kernel can evaluate it (the `Rat` field operations are
irreducible). -/
def intFloorLog2 (n d : Int) : Int :=
  if d ≤ n then (bitLen (n.fdiv d).toNat : Int) - 1
  else -(bitLen (((d + n - 1).fdiv n).toNat - 1) : Int)

/-- Round the positive fraction `n/d` (`n, d > 0`) to the nearest binary64
value (round-to-nearest, ties to even) with the given sign, for magnitudes
in the normal range of binary64 — the only range the decoder's gyro-scale
arithmetic visits.  Overflow/subnormal handling of the real format is not
needed here.  The mantissa is `m = round(n/d · 2^(52-e))` with
`e = ⌊log2 (n/d)⌋`; the result is the exact rational `±m · 2^(e-52)`. -/
def roundF64Pair (sgn n d : Int) : ℚ :=
  let e := intFloorLog2 n d
  let n' := if 0 ≤ 52 - e then n * 2 ^ (52 - e).toNat else n
  let d' := if 0 ≤ 52 - e then d else d * 2 ^ (e - 52).toNat
  let fl := n'.fdiv d'
  let rem := n' - fl * d'
  let m :=
    if 2 * rem < d' then fl
    else if d' < 2 * rem then fl + 1
    else if fl % 2 = 0 then fl else fl + 1
  if 0 ≤ e - 52 then Rat.divInt (sgn * m * 2 ^ (e - 52).toNat) 1
  else Rat.divInt (sgn * m) (2 ^ (52 - e).toNat)

/-- Round the fraction `n/d` (`d > 0`) to the nearest binary64 value. -/
def roundF64Frac (n d : Int) : ℚ :=
  if n = 0 then 0
  else if n < 0 then roundF64Pair (-1) (-n) d
  else roundF64Pair 1 n d

/-- Binary64 multiplication: exact product, then one rounding. -/
def f64mul (a b : ℚ) : ℚ := roundF64Frac (a.num * b.num) ((a.den : Int) * b.den)

/-- Binary64 division: exact quotient, then one rounding. -/
def f64div (a b : ℚ) : ℚ :=
  let n := a.num * (b.den : Int)
  let d := (a.den : Int) * b.num
  if d < 0 then roundF64Frac (-n) (-d) else roundF64Frac n d

/-- Exact value of the binary64 constant `math.pi`
(bit pattern 0x400921FB54442D18). -/
def piF64 : ℚ := Rat.divInt 884279719003555 281474976710656

/-- Exact value of the binary64 literal `0.000001`
(nearest double to 10⁻⁶). -/
def e6F64 : ℚ := Rat.divInt 4722366482869645 4722366482869645213696

/-- Exact value of an IEEE-754 binary32 bit pattern as a rational
(as produced by `struct.unpack("<f", struct.pack("<I", bits))`): sign,
8-bit exponent, 23-bit mantissa, with value `±(2²³+frac)·2^(expo-150)`
for normal numbers and `±frac·2^-149` for subnormals.  Exponent-255
patterns (infinities and NaNs) are outside this model and outside every
claim; they are mapped to 0. -/
def decodeF32 (bits : Nat) : ℚ :=
  let sgn : Int := if bits / 2 ^ 31 % 2 = 1 then -1 else 1
  let expo : Nat := bits / 2 ^ 23 % 256
  let frac : Nat := bits % 2 ^ 23
  if expo = 0 then Rat.divInt (sgn * frac) (2 ^ 149)
  else if expo = 255 then 0
  else if 150 ≤ expo then Rat.divInt (sgn * (2 ^ 23 + frac) * 2 ^ (expo - 150)) 1
  else Rat.divInt (sgn * (2 ^ 23 + frac)) (2 ^ (150 - expo))

/-! ### `stream.py`: the binary stream state and primitive reads -/

/-- State of `BinaryStream` (`stream.py`): buffer, size, `[dstart, dend)`
window, byte cursor `pos`, bit cursor `bitPos` (bits remaining in the
current byte minus one, MSB first), and the sticky `eof` flag. -/
structure BStream where
  data : List Nat
  size : Nat
  dstart : Nat
  dend : Nat
  pos : Nat
  bitPos : Nat
  eof : Bool
deriving Repr, DecidableEq

/-- `BinaryStream.__init__(data, start, end)`. -/
def mkStream (data : List Nat) (dstart dend : Nat) : BStream :=
  { data := data, size := data.length, dstart := dstart, dend := dend,
    pos := dstart, bitPos := 7, eof := false }

/-- `BinaryStream(data)` over the whole buffer. -/
def mkStream0 (data : List Nat) : BStream := mkStream data 0 data.length

/-- `peek_char`: next byte without advancing, or EOF (`none`, setting the
sticky flag). -/
def peekCharS (s : BStream) : Option Nat × BStream :=
  if s.pos < s.dend then (some (s.data.getD s.pos 0), s)
  else (none, { s with eof := true })

/-- `read_byte`: one unsigned byte, or EOF. -/
def readByteS (s : BStream) : Option Nat × BStream :=
  if s.pos < s.dend then (some (s.data.getD s.pos 0), { s with pos := s.pos + 1 })
  else (none, { s with eof := true })

/-- `read(length)`: up to `length` bytes; truncation sets the EOF flag. -/
def readSliceS (length : Nat) (s : BStream) : List Nat × BStream :=
  let avail := s.dend - s.pos
  let len' := if length > avail then avail else length
  let setEof := length > avail
  ((s.data.drop s.pos).take len',
   { s with pos := s.pos + len', eof := s.eof || setEof })

/-- Inner loop of `read_bits`: read `n` bits MSB-first from `(pos, bitPos)`
accumulating `result |= bit << (remaining - 1)`; returns the accumulator
and the final cursor. -/
def readBitsLoop (d : List Nat) : Nat → Nat → Nat → Nat → Nat × Nat × Nat
  | 0, pos, bitPos, acc => (acc, pos, bitPos)
  | n + 1, pos, bitPos, acc =>
    let b := d.getD pos 0 >>> bitPos &&& 1
    let acc' := acc ||| b <<< n
    if bitPos = 0 then readBitsLoop d n (pos + 1) 7 acc'
    else readBitsLoop d n pos (bitPos - 1) acc'

/-- `read_bits(num_bits)`: on underflow of the rough byte estimate, set EOF,
move the cursor to `dend` and return EOF; otherwise run the bit loop. -/
def readBitsS (numBits : Nat) (s : BStream) : Option Nat × BStream :=
  let numBytes := (numBits + 8 - 1) / 8
  if s.pos + numBytes > s.dend then
    (none, { s with pos := s.dend, eof := true, bitPos := 7 })
  else
    let r := readBitsLoop s.data numBits s.pos s.bitPos 0
    (some r.1, { s with pos := r.2.1, bitPos := r.2.2 })

/-- `byte_align`: advance to the next byte boundary if mid-byte. -/
def byteAlignS (s : BStream) : BStream :=
  if s.bitPos ≠ 7 then { s with bitPos := 7, pos := s.pos + 1 } else s

/-! ### Integer helpers from `stream.py` / `decoders.py` -/

/-- `zigzag_decode`: `(value >> 1) ^ -(value & 1)` on a Python int (written
out via the two's-complement identity `x ^ -1 = -x - 1`), then the single
adjustment into 32-bit signed range the source performs. -/
def zigzagDecode (value : Nat) : Int :=
  let r : Int := if value % 2 = 1 then -((value / 2 : Nat) : Int) - 1 else ((value / 2 : Nat) : Int)
  if r > 0x7FFFFFFF then r - 0x100000000 else r

/-- `zigzag_encode`: `((value << 1) ^ (value >> 31)) & 0xFFFFFFFF` for a
signed 32-bit input; `value >> 31` of a negative Python int is `-1`, so the
xor complements, and the final mask reduces modulo 2³². -/
def zigzagEncode (value : Int) : Nat :=
  (if value < 0 then (-(2 * value) - 1).toNat % 2 ^ 32 else (2 * value).toNat % 2 ^ 32)

/-- `sign_extend(value, bits)`. -/
def signExtend (value : Nat) (bits : Nat) : Int :=
  let v := value % 2 ^ bits
  if 2 ^ (bits - 1) ≤ v then (v : Int) - 2 ^ bits else (v : Int)

/-- `_to_signed8` (`decoders.py`). -/
def toSigned8 (v : Nat) : Int :=
  let v := v % 0x100
  if v < 0x80 then (v : Int) else (v : Int) - 0x100

/-- `_to_signed16`. -/
def toSigned16 (v : Nat) : Int :=
  let v := v % 0x10000
  if v < 0x8000 then (v : Int) else (v : Int) - 0x10000

/-- `_to_signed32`. -/
def toSigned32 (v : Nat) : Int :=
  let v := v % 0x100000000
  if v < 0x80000000 then (v : Int) else (v : Int) - 0x100000000

/-- `_truncate(value, signed)` (`frames.py`): `value & 0xFFFFFFFF` on a
Python int is its residue modulo 2³². -/
def truncate32 (value : Int) (signed : Int) : Int :=
  let v := value.emod 0x100000000
  if signed ≠ 0 then (if v ≥ 0x80000000 then v - 0x100000000 else v) else v

/-! ### The free monad of stream operations and its interpreter -/

/-- Free monad over the primitive `BinaryStream` operations the decoder
uses.  Every composite Python read routine is written as a value of `M`
mirroring its call sequence; `runM` supplies the stream state.  The single
place the source mutates the window end (the LOG_END event) is handled
explicitly outside `M`. -/
inductive M (α : Type) : Type where
  | pure (a : α)
  | peekChar (k : Option Nat → M α)
  | readByte (k : Option Nat → M α)
  | readBits (n : Nat) (k : Option Nat → M α)
  | readSlice (n : Nat) (k : List Nat → M α)
  | byteAlign (k : M α)
  | getEof (k : Bool → M α)

/-- Monadic bind for `M` by grafting on the leaves. -/
def M.bind {α β : Type} : M α → (α → M β) → M β
  | .pure a, f => f a
  | .peekChar k, f => .peekChar (fun r => (k r).bind f)
  | .readByte k, f => .readByte (fun r => (k r).bind f)
  | .readBits n k, f => .readBits n (fun r => (k r).bind f)
  | .readSlice n k, f => .readSlice n (fun r => (k r).bind f)
  | .byteAlign k, f => .byteAlign (k.bind f)
  | .getEof k, f => .getEof (fun r => (k r).bind f)

instance : Monad M where
  pure := M.pure
  bind := M.bind

/-- Interpreter for `M`: each operation is the corresponding
`BinaryStream` method. -/
def runM {α : Type} : M α → BStream → α × BStream
  | .pure a, s => (a, s)
  | .peekChar k, s => let r := peekCharS s; runM (k r.1) r.2
  | .readByte k, s => let r := readByteS s; runM (k r.1) r.2
  | .readBits n k, s => let r := readBitsS n s; runM (k r.1) r.2
  | .readSlice n k, s => let r := readSliceS n s; runM (k r.1) r.2
  | .byteAlign k, s => runM k (byteAlignS s)
  | .getEof k, s => runM (k s.eof) s

/-- `peek_char` as an `M` action. -/
def peekCharM : M (Option Nat) := .peekChar .pure

/-- `read_byte` as an `M` action. -/
def readByteM : M (Option Nat) := .readByte .pure

/-- `read_bits(n)` as an `M` action. -/
def readBitsM (n : Nat) : M (Option Nat) := .readBits n .pure

/-- `read_bit()` = `read_bits(1)` (`stream.py`). -/
def readBitM : M (Option Nat) := readBitsM 1

/-- `read(n)` as an `M` action. -/
def readSliceM (n : Nat) : M (List Nat) := .readSlice n .pure

/-- `byte_align()` as an `M` action. -/
def byteAlignM : M Unit := .byteAlign (.pure ())

/-- Query of the sticky `stream.eof` flag (read directly by the Elias
decoders). -/
def getEofM : M Bool := .getEof .pure

/-! ### Composite reads from `stream.py` -/

/-- Loop body of `read_unsigned_vb` (at most 5 bytes; overlong and EOF
reads yield 0).  `fuel` counts the remaining `for` iterations. -/
def readUnsignedVBLoop : Nat → Nat → Nat → M Nat
  | 0, _result, _shift => pure 0
  | fuel + 1, result, shift => do
    match ← readByteM with
    | none => pure 0
    | some c =>
      let result := result ||| (c &&& 0x7F) <<< shift
      if c < 128 then pure result
      else readUnsignedVBLoop fuel result (shift + 7)

/-- `read_unsigned_vb()`. -/
def readUnsignedVBM : M Nat := readUnsignedVBLoop 5 0 0

/-- `read_signed_vb()`. -/
def readSignedVBM : M Int := do
  let u ← readUnsignedVBM
  pure (zigzagDecode u)

/-- `read_s16()`: little-endian signed 16-bit, 0 when either byte is EOF. -/
def readS16M : M Int := do
  let lo ← readByteM
  let hi ← readByteM
  match lo, hi with
  | some l, some h => pure (toSigned16 (l ||| h <<< 8))
  | _, _ => pure 0

/-- `read_raw_float()`: 4 little-endian bytes decoded as binary32 (exact
rational value); short reads give 0.0. -/
def readRawFloatM : M ℚ := do
  let raw ← readSliceM 4
  if raw.length < 4 then pure 0
  else pure (decodeF32 (raw.getD 0 0 ||| raw.getD 1 0 <<< 8 ||| raw.getD 2 0 <<< 16 ||| raw.getD 3 0 <<< 24))

/-! ### `decoders.py`: tag-packed and Elias codecs -/

/-- Helper for `read_tag2_3s32`, selector 3: one field of 8/16/24/32 bits
little-endian selected by the low two bits of `lead`.  EOF bytes are the
Python `-1`, which the source feeds into the arithmetic; no claim reaches
that path, and it is modelled by treating the EOF byte as `-1` folded
through the same expressions via `Option.getD`-style totalisation is
avoided: the byte values are taken as read, with `none` mapped to the
source's `-1` before the shift arithmetic. -/
def tag2FieldM (fieldSize : Nat) : M Int := do
  match fieldSize with
  | 0 => do
    let b1 ← readByteM
    pure (toSigned8 (b1.getD 0))
  | 1 => do
    let b1 ← readByteM
    let b2 ← readByteM
    pure (toSigned16 (b1.getD 0 ||| b2.getD 0 <<< 8))
  | 2 => do
    let b1 ← readByteM
    let b2 ← readByteM
    let b3 ← readByteM
    pure (signExtend (b1.getD 0 ||| b2.getD 0 <<< 8 ||| b3.getD 0 <<< 16) 24)
  | _ => do
    let b1 ← readByteM
    let b2 ← readByteM
    let b3 ← readByteM
    let b4 ← readByteM
    pure (toSigned32 (b1.getD 0 ||| b2.getD 0 <<< 8 ||| b3.getD 0 <<< 16 ||| b4.getD 0 <<< 24))

/-- `read_tag2_3s32`: three signed values packed behind a 2-bit selector. -/
def readTag2_3S32M : M (List Int) := do
  match ← readByteM with
  | none => pure [0, 0, 0]
  | some lead =>
    let selector := lead >>> 6
    if selector = 0 then
      pure [signExtend (lead >>> 4 &&& 0x03) 2,
            signExtend (lead >>> 2 &&& 0x03) 2,
            signExtend (lead &&& 0x03) 2]
    else if selector = 1 then do
      let v0 := signExtend (lead &&& 0x0F) 4
      let lead2 ← readByteM
      pure [v0, signExtend (lead2.getD 0 >>> 4) 4, signExtend (lead2.getD 0 &&& 0x0F) 4]
    else if selector = 2 then do
      let v0 := signExtend (lead &&& 0x3F) 6
      let lead2 ← readByteM
      let v1 := signExtend (lead2.getD 0 &&& 0x3F) 6
      let lead3 ← readByteM
      pure [v0, v1, signExtend (lead3.getD 0 &&& 0x3F) 6]
    else do
      let v0 ← tag2FieldM (lead &&& 0x03)
      let v1 ← tag2FieldM (lead >>> 2 &&& 0x03)
      let v2 ← tag2FieldM (lead >>> 4 &&& 0x03)
      pure [v0, v1, v2]

/-- One iteration step state for `read_tag8_4s16_v1`: the `while i < 4`
loop advances `i` by one normally and by two when a 4-bit pair is split
out.  `values` is the accumulator. -/
def readTag8_4S16V1Loop : Nat → Nat → Nat → List Int → M (List Int)
  | 0, _i, _selector, values => pure values
  | fuel + 1, i, selector, values =>
    if i < 4 then do
      let fieldType := selector &&& 0x03
      if fieldType = 0 then
        readTag8_4S16V1Loop fuel (i + 1) (selector >>> 2) (values.set i 0)
      else if fieldType = 1 then do
        let combined ← readByteM
        let c := combined.getD 0
        let values := values.set i (signExtend (c &&& 0x0F) 4)
        let i' := i + 1
        let selector' := selector >>> 2
        let values := if i' < 4 then values.set i' (signExtend (c >>> 4) 4) else values
        readTag8_4S16V1Loop fuel (i' + 1) (selector' >>> 2) values
      else if fieldType = 2 then do
        let b ← readByteM
        readTag8_4S16V1Loop fuel (i + 1) (selector >>> 2) (values.set i (toSigned8 (b.getD 0)))
      else do
        let c1 ← readByteM
        let c2 ← readByteM
        readTag8_4S16V1Loop fuel (i + 1) (selector >>> 2)
          (values.set i (toSigned16 (c1.getD 0 ||| c2.getD 0 <<< 8)))
    else pure values

/-- `read_tag8_4s16_v1` (data version < 2). -/
def readTag8_4S16V1M : M (List Int) := do
  let selector ← readByteM
  readTag8_4S16V1Loop 5 0 (selector.getD 0) [0, 0, 0, 0]

/-- Loop of `read_tag8_4s16_v2`: four fields with a one-nibble carry
buffer. -/
def readTag8_4S16V2Loop : Nat → Nat → Nat → Nat → List Int → M (List Int)
  | 0, _selector, _nibbleIndex, _buffer, values => pure values
  | fuel + 1, selector, nibbleIndex, buffer, values => do
    let i := 4 - (fuel + 1)
    let fieldType := selector &&& 0x03
    if fieldType = 0 then
      readTag8_4S16V2Loop fuel (selector >>> 2) nibbleIndex buffer (values.set i 0)
    else if fieldType = 1 then
      if nibbleIndex = 0 then do
        let b ← readByteM
        let buffer := b.getD 0
        readTag8_4S16V2Loop fuel (selector >>> 2) 1 buffer
          (values.set i (signExtend (buffer >>> 4) 4))
      else
        readTag8_4S16V2Loop fuel (selector >>> 2) 0 buffer
          (values.set i (signExtend (buffer &&& 0x0F) 4))
    else if fieldType = 2 then
      if nibbleIndex = 0 then do
        let b ← readByteM
        readTag8_4S16V2Loop fuel (selector >>> 2) nibbleIndex buffer
          (values.set i (toSigned8 (b.getD 0)))
      else do
        let c1 := buffer <<< 4 &&& 0xFF
        let b ← readByteM
        let buffer := b.getD 0
        let c1 := c1 ||| buffer >>> 4
        readTag8_4S16V2Loop fuel (selector >>> 2) nibbleIndex buffer
          (values.set i (toSigned8 c1))
    else
      if nibbleIndex = 0 then do
        let c1 ← readByteM
        let c2 ← readByteM
        readTag8_4S16V2Loop fuel (selector >>> 2) nibbleIndex buffer
          (values.set i (toSigned16 (c1.getD 0 <<< 8 ||| c2.getD 0)))
      else do
        let c1 ← readByteM
        let c2 ← readByteM
        let v := toSigned16 ((buffer &&& 0x0F) <<< 12 ||| c1.getD 0 <<< 4 ||| c2.getD 0 >>> 4)
        readTag8_4S16V2Loop fuel (selector >>> 2) nibbleIndex (c2.getD 0)
          (values.set i v)

/-- `read_tag8_4s16_v2` (data version ≥ 2). -/
def readTag8_4S16V2M : M (List Int) := do
  let selector ← readByteM
  readTag8_4S16V2Loop 4 (selector.getD 0) 0 0 [0, 0, 0, 0]

/-- Loop of the multi-value branch of `read_tag8_8svb`: bit `k` of the
header byte (LSB first) selects whether slot `k` holds a signed VB. -/
def readTag8_8SVBLoop : Nat → Nat → List Int → M (List Int)
  | 0, _header, values => pure values
  | fuel + 1, header, values => do
    let i := 8 - (fuel + 1)
    if header &&& 0x01 ≠ 0 then do
      let v ← readSignedVBM
      readTag8_8SVBLoop fuel (header >>> 1) (values.set i v)
    else
      readTag8_8SVBLoop fuel (header >>> 1) (values.set i 0)

/-- `read_tag8_8svb(stream, value_count)`. -/
def readTag8_8SVBM (valueCount : Nat) : M (List Int) := do
  if valueCount = 1 then do
    let v ← readSignedVBM
    pure ((List.replicate 8 (0 : Int)).set 0 v)
  else do
    let header ← readByteM
    readTag8_8SVBLoop 8 (header.getD 0) (List.replicate 8 (0 : Int))

/-- Unary run of zero bits shared by the two Elias decoders: the Python
`while count <= 32` loop reads one bit per iteration, returns `none` on an
EOF bit (the decoder then returns 0), and stops either at the first 1 bit
or, after 33 iterations, with `count = 33` (the `count > 32` overflow the
caller rejects).  `fuel` is exactly the number of iterations the `while`
condition still allows. -/
def eliasUnaryLoop : Nat → Nat → M (Option Nat)
  | 0, count => pure (some count)
  | fuel + 1, count => do
    match ← readBitM with
    | none => pure none
    | some b => if b ≠ 0 then pure (some count) else eliasUnaryLoop fuel (count + 1)

/-- `read_elias_delta_u32`. -/
def readEliasDeltaU32M : M Nat := do
  match ← eliasUnaryLoop 33 0 with
  | none => pure 0
  | some lengthValBits => do
    let eof1 ← getEofM
    if eof1 || lengthValBits > 32 then pure 0
    else do
      let lengthLowBits ← (if lengthValBits > 0 then readBitsM lengthValBits else pure (some 0))
      let eof2 ← getEofM
      if eof2 then pure 0
      else do
        let length := (1 <<< lengthValBits ||| lengthLowBits.getD 0) - 1
        if length > 32 then pure 0
        else do
          let resultLowBits ← (if length > 0 then readBitsM length else pure (some 0))
          let eof3 ← getEofM
          if eof3 then pure 0
          else do
            let result := 1 <<< length ||| resultLowBits.getD 0
            if result = 0xFFFFFFFF then do
              match ← readBitM with
              | some 0 => pure 0xFFFFFFFE
              | some 1 => pure 0xFFFFFFFF
              | _ => pure 0
            else pure (result - 1)

/-- `read_elias_delta_s32`. -/
def readEliasDeltaS32M : M Int := do
  let u ← readEliasDeltaU32M
  pure (zigzagDecode u)

/-- `read_elias_gamma_u32`.  Note the source reads `val_bits - 1`
value bits after a run of `val_bits` zeros (its `0xFFFFFFFF` escape
then reads one extra bit). -/
def readEliasGammaU32M : M Nat := do
  match ← eliasUnaryLoop 33 0 with
  | none => pure 0
  | some valBits => do
    let eof1 ← getEofM
    if eof1 || valBits > 32 then pure 0
    else do
      let valueLowBits ← (if valBits > 1 then readBitsM (valBits - 1) else pure (some 0))
      let eof2 ← getEofM
      if eof2 && valBits > 1 then pure 0
      else do
        let result := if valBits > 0 then 1 <<< (valBits - 1) ||| valueLowBits.getD 0 else 1
        if result = 0xFFFFFFFF then do
          match ← readBitM with
          | some 0 => pure 0xFFFFFFFE
          | some 1 => pure 0xFFFFFFFF
          | _ => pure 0
        else pure (result - 1)

/-- `read_elias_gamma_s32`. -/
def readEliasGammaS32M : M Int := do
  let u ← readEliasGammaU32M
  pure (zigzagDecode u)

/-! ### `defs.py`: constants and enums -/

/-- `FLIGHT_LOG_MAX_FIELDS`. -/
def maxFields : Nat := 128

/-- `MAXIMUM_TIME_JUMP_BETWEEN_FRAMES` (10 s in microseconds). -/
def maxTimeJump : Int := 10000000

/-- `MAXIMUM_ITERATION_JUMP_BETWEEN_FRAMES` (500 · 10). -/
def maxIterJump : Int := 5000

/-- `FirmwareType` enum. -/
inductive FirmwareType where
  | unknown
  | baseflight
  | cleanflight
  | betaflight
deriving Repr, DecidableEq

/-- `FieldPredictor` numeric values (IntEnum in the source). -/
def predZERO : Int := 0
def predPREVIOUS : Int := 1
def predSTRAIGHT_LINE : Int := 2
def predAVERAGE_2 : Int := 3
def predMINTHROTTLE : Int := 4
def predMOTOR_0 : Int := 5
def predINC : Int := 6
def predHOME_COORD : Int := 7
def predFIFTEEN_HUNDRED : Int := 8
def predVBATREF : Int := 9
def predLAST_MAIN_FRAME_TIME : Int := 10
def predMINMOTOR : Int := 11
def predHOME_COORD_1 : Int := 256

/-- `FieldEncoding` numeric values. -/
def encSIGNED_VB : Int := 0
def encUNSIGNED_VB : Int := 1
def encNEG_14BIT : Int := 3
def encELIAS_DELTA_U32 : Int := 4
def encELIAS_DELTA_S32 : Int := 5
def encTAG8_8SVB : Int := 6
def encTAG2_3S32 : Int := 7
def encTAG8_4S16 : Int := 8
def encNULL : Int := 9
def encELIAS_GAMMA_U32 : Int := 10
def encELIAS_GAMMA_S32 : Int := 11

/-! ### `headers.py`: header data structures -/

/-- `FrameDef`: schema of one frame type. -/
structure FrameDef where
  fieldNames : List (List Nat)
  fieldCount : Nat
  fieldSigned : List Int
  fieldWidth : List Int
  predictor : List Int
  encoding : List Int
deriving Repr, DecidableEq

/-- Default `FrameDef()` (width defaults to 4 per field). -/
def FrameDef.default : FrameDef :=
  { fieldNames := [], fieldCount := 0,
    fieldSigned := List.replicate maxFields 0,
    fieldWidth := List.replicate maxFields 4,
    predictor := List.replicate maxFields 0,
    encoding := List.replicate maxFields 0 }

/-- `SysConfig` with its dataclass defaults.  `gyroScale` is the exact
rational value of the Python float. -/
structure SysConfig where
  minthrottle : Int := 1150
  maxthrottle : Int := 1850
  motorOutputLow : Int := 1150
  motorOutputHigh : Int := 1850
  rcRate : Int := 90
  yawRate : Int := 0
  acc1G : Int := 1
  gyroScale : ℚ := 1
  vbatscale : Int := 110
  vbatmaxcellvoltage : Int := 43
  vbatmincellvoltage : Int := 33
  vbatwarningcellvoltage : Int := 35
  currentMeterOffset : Int := 0
  currentMeterScale : Int := 400
  vbatref : Int := 4095
  firmwareType : FirmwareType := .unknown
deriving Repr, DecidableEq

/-- `MainFieldIndexes` (−1 means absent). -/
structure MainFieldIndexes where
  loopIteration : Int := -1
  time : Int := -1
  pid : List (List Int) := [[-1, -1, -1], [-1, -1, -1], [-1, -1, -1]]
  rcCommand : List Int := [-1, -1, -1, -1]
  vbatLatest : Int := -1
  amperageLatest : Int := -1
  magADC : List Int := [-1, -1, -1]
  baroAlt : Int := -1
  sonarRaw : Int := -1
  rssi : Int := -1
  gyroADC : List Int := [-1, -1, -1]
  accSmooth : List Int := [-1, -1, -1]
  motor : List Int := List.replicate 8 (-1)
  servo : List Int := List.replicate 8 (-1)
deriving Repr, DecidableEq

/-- `GPSFieldIndexes`. -/
structure GPSFieldIndexes where
  time : Int := -1
  gpsNumSat : Int := -1
  gpsCoord : List Int := [-1, -1]
  gpsAltitude : Int := -1
  gpsSpeed : Int := -1
  gpsGroundCourse : Int := -1
deriving Repr, DecidableEq

/-- `GPSHomeFieldIndexes`. -/
structure GPSHomeFieldIndexes where
  gpsHome : List Int := [-1, -1]
deriving Repr, DecidableEq

/-- `SlowFieldIndexes`. -/
structure SlowFieldIndexes where
  flightModeFlags : Int := -1
  stateFlags : Int := -1
  failsafePhase : Int := -1
deriving Repr, DecidableEq

/-- `LogHeader`: all metadata of one log.  `frameDefs` models the Python
dict as an association list in insertion order; `datetimeRaw` keeps the
raw value of a `Log start datetime` line (its ISO-8601 validation plays no
role in any claim and the field is never read by the decoder). -/
structure LogHeader where
  frameDefs : List (Nat × FrameDef) := []
  sysConfig : SysConfig := {}
  mainFieldIndexes : MainFieldIndexes := {}
  gpsFieldIndexes : GPSFieldIndexes := {}
  gpsHomeFieldIndexes : GPSHomeFieldIndexes := {}
  slowFieldIndexes : SlowFieldIndexes := {}
  dataVersion : Int := 0
  fcVersion : List Nat := []
  firmwareRevision : List Nat := []
  frameIntervalI : Int := 32
  frameIntervalPNum : Int := 1
  frameIntervalPDenom : Int := 1
  datetimeRaw : Option (List Nat) := none
  rawHeaders : List (List Nat × List Nat) := []
deriving Repr, DecidableEq

/-- Dict lookup `header.frame_defs.get(t)`. -/
def LogHeader.getFrameDef (h : LogHeader) (t : Nat) : Option FrameDef :=
  (h.frameDefs.find? (fun p => p.1 = t)).map Prod.snd

/-- Dict write-through used to model `_get_or_create_frame_def` followed by
mutation of the returned reference: apply `f` to the existing entry, or to
a fresh `FrameDef` appended in insertion order. -/
def LogHeader.updateFrameDef (h : LogHeader) (t : Nat) (f : FrameDef → FrameDef) : LogHeader :=
  if (h.frameDefs.find? (fun p => p.1 = t)).isSome then
    { h with frameDefs := h.frameDefs.map (fun p => if p.1 = t then (p.1, f p.2) else p) }
  else
    { h with frameDefs := h.frameDefs ++ [(t, f FrameDef.default)] }

/-- Dict overwrite `header.raw_headers[k] = v`. -/
def storeRaw (hs : List (List Nat × List Nat)) (k v : List Nat) : List (List Nat × List Nat) :=
  if (hs.find? (fun p => p.1 = k)).isSome then
    hs.map (fun p => if p.1 = k then (p.1, v) else p)
  else hs ++ [(k, v)]

/-- `_parse_field_names`: split on commas, strip, drop empties. -/
def parseFieldNames (value : List Nat) : List (List Nat) :=
  ((pySplit 44 value).map pyStrip).filter (fun n => ¬ n.isEmpty)

/-- `_parse_csv_ints`: split on commas, strip, skip empties, malformed
entries become 0 (the source catches `ValueError`). -/
def parseCsvInts (value : List Nat) : List Int :=
  ((pySplit 44 value).map pyStrip).filterMap (fun part =>
    if part.isEmpty then none else some ((pyInt part).getD 0))

/-- Positional assignment loop `for j, v in enumerate(ints): arr[j] = v`.
`List.set` ignores out-of-range writes; the source would raise past
`FLIGHT_LOG_MAX_FIELDS`, which no claim exercises. -/
def setInts (arr : List Int) (ints : List Int) : List Int :=
  ints.enum.foldl (fun a jv => a.set jv.1 jv.2) arr

/-- Python `s.rstrip("]")`: drop trailing `]` characters. -/
def pyRstripBracket (s : List Nat) : List Nat :=
  (s.reverse.dropWhile (fun c => c = 93)).reverse

/-- Index of the first `[` in a name (`name.find("[")`, `none` for −1). -/
def findBracket : List Nat → Option Nat
  | [] => none
  | c :: r => if c = 91 then some 0 else (findBracket r).map (· + 1)

/-- `int(name[plen:].rstrip("]"))` used for bracketed field indexes; a
malformed index (where Python would raise) is mapped to 0, which no claim
exercises. -/
def bracketIdx (s : List Nat) (plen : Nat) : Int :=
  pyIntTotal (pyRstripBracket (s.drop plen))

/-- Guarded positional store `arr[idx] = v` for an `Int` index: the source
either guards the range itself (motor, rcCommand) or would raise/wrap on an
out-of-range index (the other bracketed names), which no claim exercises. -/
def setAt (l : List Int) (idx : Int) (v : Int) : List Int :=
  if 0 ≤ idx ∧ idx.toNat < l.length then l.set idx.toNat v else l

/-- Nested store `pid[row][ai] = v`. -/
def setPid (pid : List (List Int)) (row : Nat) (ai : Int) (v : Int) : List (List Int) :=
  pid.set row (setAt (pid.getD row []) ai v)

/-- One step of `_identify_main_fields` for field `i` named `name`. -/
def identifyMainStep (idx : MainFieldIndexes) (i : Nat) (name : List Nat) : MainFieldIndexes :=
  if pyStartsWith name (sLit "motor[") then
    let mi := bracketIdx name 6
    if 0 ≤ mi ∧ mi < 8 then { idx with motor := setAt idx.motor mi i } else idx
  else if pyStartsWith name (sLit "rcCommand[") then
    let ri := bracketIdx name 10
    if 0 ≤ ri ∧ ri < 4 then { idx with rcCommand := setAt idx.rcCommand ri i } else idx
  else if pyStartsWith name (sLit "axis") then
    let axisLetter := name.getD 4 0
    match findBracket name with
    | none => idx
    | some bp =>
      let ai := pyIntTotal (pyRstripBracket (name.drop (bp + 1)))
      if axisLetter = 80 then { idx with pid := setPid idx.pid 0 ai i }
      else if axisLetter = 73 then { idx with pid := setPid idx.pid 1 ai i }
      else if axisLetter = 68 then { idx with pid := setPid idx.pid 2 ai i }
      else idx
  else if pyStartsWith name (sLit "gyroData[") || pyStartsWith name (sLit "gyroADC[") then
    let plen := if pyStartsWith name (sLit "gyroData[") then 9 else 8
    { idx with gyroADC := setAt idx.gyroADC (bracketIdx name plen) i }
  else if pyStartsWith name (sLit "magADC[") then
    { idx with magADC := setAt idx.magADC (bracketIdx name 7) i }
  else if pyStartsWith name (sLit "accSmooth[") then
    { idx with accSmooth := setAt idx.accSmooth (bracketIdx name 10) i }
  else if pyStartsWith name (sLit "servo[") then
    { idx with servo := setAt idx.servo (bracketIdx name 6) i }
  else if name = sLit "vbatLatest" then { idx with vbatLatest := i }
  else if name = sLit "amperageLatest" then { idx with amperageLatest := i }
  else if name = sLit "BaroAlt" then { idx with baroAlt := i }
  else if name = sLit "sonarRaw" then { idx with sonarRaw := i }
  else if name = sLit "rssi" then { idx with rssi := i }
  else if name = sLit "loopIteration" then { idx with loopIteration := i }
  else if name = sLit "time" then { idx with time := i }
  else idx

/-- `_identify_main_fields` over the enumerated field names. -/
def identifyMainFields (idx : MainFieldIndexes) (names : List (List Nat)) : MainFieldIndexes :=
  names.enum.foldl (fun a p => identifyMainStep a p.1 p.2) idx

/-- One step of `_identify_gps_fields`. -/
def identifyGpsStep (idx : GPSFieldIndexes) (i : Nat) (name : List Nat) : GPSFieldIndexes :=
  if name = sLit "time" then { idx with time := i }
  else if name = sLit "GPS_numSat" then { idx with gpsNumSat := i }
  else if name = sLit "GPS_altitude" then { idx with gpsAltitude := i }
  else if name = sLit "GPS_speed" then { idx with gpsSpeed := i }
  else if name = sLit "GPS_ground_course" then { idx with gpsGroundCourse := i }
  else if pyStartsWith name (sLit "GPS_coord[") then
    { idx with gpsCoord := setAt idx.gpsCoord (bracketIdx name 10) i }
  else idx

/-- `_identify_gps_fields`. -/
def identifyGpsFields (idx : GPSFieldIndexes) (names : List (List Nat)) : GPSFieldIndexes :=
  names.enum.foldl (fun a p => identifyGpsStep a p.1 p.2) idx

/-- `_identify_gps_home_fields`. -/
def identifyGpsHomeFields (idx : GPSHomeFieldIndexes) (names : List (List Nat)) : GPSHomeFieldIndexes :=
  names.enum.foldl (fun a p =>
    if p.2 = sLit "GPS_home[0]" then { a with gpsHome := setAt a.gpsHome 0 p.1 }
    else if p.2 = sLit "GPS_home[1]" then { a with gpsHome := setAt a.gpsHome 1 p.1 }
    else a) idx

/-- `_identify_slow_fields`. -/
def identifySlowFields (idx : SlowFieldIndexes) (names : List (List Nat)) : SlowFieldIndexes :=
  names.enum.foldl (fun a p =>
    if p.2 = sLit "flightModeFlags" then { a with flightModeFlags := p.1 }
    else if p.2 = sLit "stateFlags" then { a with stateFlags := p.1 }
    else if p.2 = sLit "failsafePhase" then { a with failsafePhase := p.1 }
    else a) idx

/-- The `Field <T> ...` branch of `parse_header_line`. -/
def parseFieldHeader (h : LogHeader) (fieldName fieldValue : List Nat) : LogHeader :=
  let frameChar := fieldName.getD (sLit "Field ").length 0
  if pyEndsWith fieldName (sLit " name") then
    let names := parseFieldNames fieldValue
    let h := h.updateFrameDef frameChar
      (fun fd => { fd with fieldNames := names, fieldCount := names.length })
    if frameChar = 73 then
      let h := { h with mainFieldIndexes := identifyMainFields h.mainFieldIndexes names }
      h.updateFrameDef 80 (fun pd => { pd with fieldNames := names, fieldCount := names.length })
    else if frameChar = 71 then
      { h with gpsFieldIndexes := identifyGpsFields h.gpsFieldIndexes names }
    else if frameChar = 72 then
      { h with gpsHomeFieldIndexes := identifyGpsHomeFields h.gpsHomeFieldIndexes names }
    else if frameChar = 83 then
      { h with slowFieldIndexes := identifySlowFields h.slowFieldIndexes names }
    else h
  else if pyEndsWith fieldName (sLit " signed") then
    let ints := parseCsvInts fieldValue
    let h := h.updateFrameDef frameChar (fun fd => { fd with fieldSigned := setInts fd.fieldSigned ints })
    if frameChar = 73 then
      h.updateFrameDef 80 (fun pd => { pd with fieldSigned := setInts pd.fieldSigned ints })
    else h
  else if pyEndsWith fieldName (sLit " predictor") then
    h.updateFrameDef frameChar (fun fd => { fd with predictor := setInts fd.predictor (parseCsvInts fieldValue) })
  else if pyEndsWith fieldName (sLit " encoding") then
    h.updateFrameDef frameChar (fun fd => { fd with encoding := setInts fd.encoding (parseCsvInts fieldValue) })
  else if pyEndsWith fieldName (sLit " width") then
    h.updateFrameDef frameChar (fun fd => { fd with fieldWidth := setInts fd.fieldWidth (parseCsvInts fieldValue) })
  else h

/-- The `gyro.scale` / `gyro_scale` branch: hex-decode a binary32 bit
pattern (the `try`/`except` path and the `struct.pack` range check both
yield 1.0), then, unless the firmware type is BASEFLIGHT, multiply by
`(math.pi / 180.0)` and `0.000001` in binary64 arithmetic. -/
def parseGyroScale (h : LogHeader) (fieldValue : List Nat) : LogHeader :=
  let gs : ℚ :=
    match pyIntHex fieldValue with
    | some n => if 0 ≤ n ∧ n < 2 ^ 32 then decodeF32 n.toNat else 1
    | none => 1
  let gs :=
    if h.sysConfig.firmwareType ≠ .baseflight then
      f64mul (f64mul gs (f64div piF64 180)) e6F64
    else gs
  { h with sysConfig := { h.sysConfig with gyroScale := gs } }

/-- `parse_header_line(header, line)`. -/
def parseHeaderLine (h : LogHeader) (line : List Nat) : LogHeader :=
  match findColon line with
  | none => h
  | some cp =>
    let fieldName := pyStrip (line.take cp)
    let fieldValue := pyStrip (line.drop (cp + 1))
    let h := { h with rawHeaders := storeRaw h.rawHeaders fieldName fieldValue }
    if pyStartsWith fieldName (sLit "Field ") then
      parseFieldHeader h fieldName fieldValue
    else if fieldName = sLit "I interval" then
      { h with frameIntervalI := max 1 (pyIntTotal fieldValue) }
    else if fieldName = sLit "P interval" then
      if fieldValue.contains 47 then
        let parts := pySplit 47 fieldValue
        { h with frameIntervalPNum := pyIntTotal (parts.getD 0 []),
                 frameIntervalPDenom := pyIntTotal (parts.getD 1 []) }
      else h
    else if fieldName = sLit "Data version" then
      { h with dataVersion := pyIntTotal fieldValue }
    else if fieldName = sLit "Firmware type" then
      if fieldValue = sLit "Cleanflight" then
        { h with sysConfig := { h.sysConfig with firmwareType := .cleanflight } }
      else
        { h with sysConfig := { h.sysConfig with firmwareType := .baseflight } }
    else if fieldName = sLit "Firmware revision" then
      let h := { h with firmwareRevision := fieldValue }
      let parts := pySplit 32 fieldValue
      if 2 ≤ parts.length ∧ parts.getD 0 [] = sLit "Betaflight" then
        { h with fcVersion := parts.getD 1 [],
                 sysConfig := { h.sysConfig with firmwareType := .betaflight } }
      else h
    else if fieldName = sLit "minthrottle" then
      { h with sysConfig := { h.sysConfig with
          minthrottle := pyIntTotal fieldValue, motorOutputLow := pyIntTotal fieldValue } }
    else if fieldName = sLit "maxthrottle" then
      { h with sysConfig := { h.sysConfig with
          maxthrottle := pyIntTotal fieldValue, motorOutputHigh := pyIntTotal fieldValue } }
    else if fieldName = sLit "rcRate" then
      { h with sysConfig := { h.sysConfig with rcRate := pyIntTotal fieldValue } }
    else if fieldName = sLit "vbatscale" then
      { h with sysConfig := { h.sysConfig with vbatscale := pyIntTotal fieldValue } }
    else if fieldName = sLit "vbatref" then
      { h with sysConfig := { h.sysConfig with vbatref := pyIntTotal fieldValue } }
    else if fieldName = sLit "vbatcellvoltage" then
      let vals := parseCsvInts fieldValue
      if 3 ≤ vals.length then
        { h with sysConfig := { h.sysConfig with
            vbatmincellvoltage := vals.getD 0 0,
            vbatwarningcellvoltage := vals.getD 1 0,
            vbatmaxcellvoltage := vals.getD 2 0 } }
      else h
    else if fieldName = sLit "currentMeter" then
      let vals := parseCsvInts fieldValue
      if 2 ≤ vals.length then
        { h with sysConfig := { h.sysConfig with
            currentMeterOffset := vals.getD 0 0, currentMeterScale := vals.getD 1 0 } }
      else h
    else if fieldName = sLit "gyro.scale" || fieldName = sLit "gyro_scale" then
      parseGyroScale h fieldValue
    else if fieldName = sLit "acc_1G" then
      { h with sysConfig := { h.sysConfig with acc1G := pyIntTotal fieldValue } }
    else if fieldName = sLit "motorOutput" then
      let vals := parseCsvInts fieldValue
      if 2 ≤ vals.length then
        { h with sysConfig := { h.sysConfig with
            motorOutputLow := vals.getD 0 0, motorOutputHigh := vals.getD 1 0 } }
      else h
    else if pyStartsWith fieldName (sLit "Log start datetime") then
      { h with datetimeRaw := some fieldValue }
    else h

/-! ### `frames.py`: frame parser state -/

/-- `EventData` with its dataclass defaults.  `newFloatValue` is the exact
rational value of the decoded binary32. -/
structure EventData where
  eventType : Int := -1
  syncBeepTime : Int := 0
  adjustmentFunction : Int := 0
  newValue : Int := 0
  newFloatValue : ℚ := 0
  logIteration : Int := 0
  currentTime : Int := 0
deriving Repr, DecidableEq

/-- `FrameParser` state.  The three ring buffers of the source are the
list `ring` (three rows of `maxFields` ints); the history slots
`main_history[0..2]` always alias ring buffers (or `None`), so they are
modelled as ring indices, with `hist0` the always-present current slot.
`lastMainFrameIteration`/`lastMainFrameTime` use the source's `-1`
sentinel. -/
structure Parser where
  ring : List (List Int)
  hist0 : Nat
  hist1 : Option Nat
  hist2 : Option Nat
  mainStreamValid : Bool
  lastGps : List Int
  gpsHomeHist0 : List Int
  gpsHomeHist1 : List Int
  gpsHomeValid : Bool
  lastSlow : List Int
  lastEvent : EventData
  timeRolloverAcc : Int
  lastMainFrameIteration : Int
  lastMainFrameTime : Int
  lastSkippedFrames : Int
  ringIdx : Nat
deriving Repr, DecidableEq

/-- `FrameParser.__init__`. -/
def Parser.init : Parser :=
  { ring := List.replicate 3 (List.replicate maxFields 0),
    hist0 := 0, hist1 := none, hist2 := none,
    mainStreamValid := false,
    lastGps := List.replicate maxFields 0,
    gpsHomeHist0 := List.replicate maxFields 0,
    gpsHomeHist1 := List.replicate maxFields 0,
    gpsHomeValid := false,
    lastSlow := List.replicate maxFields 0,
    lastEvent := {},
    timeRolloverAcc := 0,
    lastMainFrameIteration := -1,
    lastMainFrameTime := -1,
    lastSkippedFrames := 0,
    ringIdx := 0 }

/-- `_apply_prediction(field_index, predictor, value, current, previous,
previous2)`.  `AVERAGE_2` uses Python's floor division.  `mh1` is the
snapshot of `self.main_history[1]` read by `LAST_MAIN_FRAME_TIME`. -/
def applyPrediction (h : LogHeader) (ghh1 : List Int) (mh1 : Option (List Int))
    (fieldIndex : Nat) (predictor : Int) (value : Int)
    (current : List Int) (previous previous2 : Option (List Int)) : Int :=
  if predictor = predZERO then value
  else if predictor = predMINTHROTTLE then value + h.sysConfig.minthrottle
  else if predictor = predFIFTEEN_HUNDRED then value + 1500
  else if predictor = predMOTOR_0 then
    let motor0Idx := h.mainFieldIndexes.motor.getD 0 (-1)
    if motor0Idx ≥ 0 then value + current.getD motor0Idx.toNat 0 else value
  else if predictor = predVBATREF then value + h.sysConfig.vbatref
  else if predictor = predMINMOTOR then value + h.sysConfig.motorOutputLow
  else if predictor = predPREVIOUS then
    match previous with
    | some prev => value + prev.getD fieldIndex 0
    | none => value
  else if predictor = predSTRAIGHT_LINE then
    match previous, previous2 with
    | some prev, some prev2 => value + 2 * prev.getD fieldIndex 0 - prev2.getD fieldIndex 0
    | _, _ => value
  else if predictor = predAVERAGE_2 then
    match previous, previous2 with
    | some prev, some prev2 => value + (prev.getD fieldIndex 0 + prev2.getD fieldIndex 0).fdiv 2
    | _, _ => value
  else if predictor = predHOME_COORD then
    let gpsHomeIdx := h.gpsHomeFieldIndexes.gpsHome.getD 0 (-1)
    if gpsHomeIdx ≥ 0 then value + ghh1.getD gpsHomeIdx.toNat 0 else value
  else if predictor = predHOME_COORD_1 then
    let gpsHomeIdx := h.gpsHomeFieldIndexes.gpsHome.getD 1 (-1)
    if gpsHomeIdx ≥ 0 then value + ghh1.getD gpsHomeIdx.toNat 0 else value
  else if predictor = predLAST_MAIN_FRAME_TIME then
    match mh1 with
    | some prev => value + prev.getD 1 0
    | none => value
  else value

/-- Scalar-encoding tail shared by the VB/NEG14/Elias/NULL arms of the
field loop: apply the predictor, then truncate unless the field width is
8. -/
def scalarTail (h : LogHeader) (ghh1 : List Int) (mh1 : Option (List Int))
    (fd : FrameDef) (i : Nat) (pred : Int) (value : Int)
    (frame : List Int) (previous previous2 : Option (List Int)) : List Int :=
  let v := applyPrediction h ghh1 mh1 i pred value frame previous previous2
  let v := if fd.fieldWidth.getD i 4 ≠ 8 then truncate32 v (fd.fieldSigned.getD i 0) else v
  frame.set i v

/-- Group-decoding tail shared by the TAG8_4S16 / TAG2_3S32 / TAG8_8SVB
arms: consume up to `n` schema slots, applying each slot's own predictor
(ZERO in raw mode); no width truncation is performed in these arms. -/
def groupTail (h : LogHeader) (ghh1 : List Int) (mh1 : Option (List Int))
    (fd : FrameDef) (raw : Bool) (values : List Int) : Nat → Nat → Nat →
    List Int → Option (List Int) → Option (List Int) → Nat × List Int
  | 0, i, _j, frame, _previous, _previous2 => (i, frame)
  | n + 1, i, j, frame, previous, previous2 =>
    if i < fd.fieldCount then
      let p := if raw then predZERO else fd.predictor.getD i 0
      let v := applyPrediction h ghh1 mh1 i p (values.getD j 0) frame previous previous2
      groupTail h ghh1 mh1 fd raw values n (i + 1) (j + 1) (frame.set i v) previous previous2
    else (i, frame)

/-- `group_count` scan of the TAG8_8SVB arm: count the contiguous run of
TAG8_8SVB encodings in `[i+1, min(i+8, field_count))`. -/
def tag8GroupCount (fd : FrameDef) (i : Nat) : Nat :=
  let stop := min (i + 8) fd.fieldCount
  let rec scan (j : Nat) (fuel : Nat) (acc : Nat) : Nat :=
    match fuel with
    | 0 => acc
    | fuel + 1 =>
      if j < stop then
        if fd.encoding.getD j 0 ≠ encTAG8_8SVB then acc
        else scan (j + 1) fuel (acc + 1)
      else acc
  scan (i + 1) 7 1

/-- Field loop of `_parse_frame` (`while i < field_count`).  `fuel` bounds
the number of loop iterations; every iteration advances `i` by at least
one, so `fieldCount` iterations suffice. -/
def parseFrameLoop (h : LogHeader) (ghh1 : List Int) (mh1 : Option (List Int))
    (fd : FrameDef) (previous previous2 : Option (List Int))
    (skippedFrames : Int) (raw : Bool) :
    Nat → Nat → List Int → M (List Int)
  | 0, _i, frame => pure frame
  | fuel + 1, i, frame =>
    if i < fd.fieldCount then
      if fd.predictor.getD i 0 = predINC then
        let v : Int := skippedFrames + 1 +
          (match previous with
           | some prev => prev.getD i 0
           | none => 0)
        parseFrameLoop h ghh1 mh1 fd previous previous2 skippedFrames raw fuel (i + 1) (frame.set i v)
      else
        let enc := fd.encoding.getD i 0
        let pred := if raw then predZERO else fd.predictor.getD i 0
        if enc = encSIGNED_VB then do
          byteAlignM
          let value ← readSignedVBM
          let frame := scalarTail h ghh1 mh1 fd i pred value frame previous previous2
          parseFrameLoop h ghh1 mh1 fd previous previous2 skippedFrames raw fuel (i + 1) frame
        else if enc = encUNSIGNED_VB then do
          byteAlignM
          let u ← readUnsignedVBM
          let frame := scalarTail h ghh1 mh1 fd i pred (u : Int) frame previous previous2
          parseFrameLoop h ghh1 mh1 fd previous previous2 skippedFrames raw fuel (i + 1) frame
        else if enc = encNEG_14BIT then do
          byteAlignM
          let u ← readUnsignedVBM
          let value := -(signExtend u 14)
          let frame := scalarTail h ghh1 mh1 fd i pred value frame previous previous2
          parseFrameLoop h ghh1 mh1 fd previous previous2 skippedFrames raw fuel (i + 1) frame
        else if enc = encTAG8_4S16 then do
          byteAlignM
          let values ← (if h.dataVersion < 2 then readTag8_4S16V1M else readTag8_4S16V2M)
          let r := groupTail h ghh1 mh1 fd raw values 4 i 0 frame previous previous2
          parseFrameLoop h ghh1 mh1 fd previous previous2 skippedFrames raw fuel r.1 r.2
        else if enc = encTAG2_3S32 then do
          byteAlignM
          let values ← readTag2_3S32M
          let r := groupTail h ghh1 mh1 fd raw values 3 i 0 frame previous previous2
          parseFrameLoop h ghh1 mh1 fd previous previous2 skippedFrames raw fuel r.1 r.2
        else if enc = encTAG8_8SVB then do
          byteAlignM
          let groupCount := tag8GroupCount fd i
          let values ← readTag8_8SVBM groupCount
          let r := groupTail h ghh1 mh1 fd raw values groupCount i 0 frame previous previous2
          parseFrameLoop h ghh1 mh1 fd previous previous2 skippedFrames raw fuel r.1 r.2
        else if enc = encELIAS_DELTA_U32 then do
          let u ← readEliasDeltaU32M
          let frame := scalarTail h ghh1 mh1 fd i pred (u : Int) frame previous previous2
          parseFrameLoop h ghh1 mh1 fd previous previous2 skippedFrames raw fuel (i + 1) frame
        else if enc = encELIAS_DELTA_S32 then do
          let value ← readEliasDeltaS32M
          let frame := scalarTail h ghh1 mh1 fd i pred value frame previous previous2
          parseFrameLoop h ghh1 mh1 fd previous previous2 skippedFrames raw fuel (i + 1) frame
        else if enc = encELIAS_GAMMA_U32 then do
          let u ← readEliasGammaU32M
          let frame := scalarTail h ghh1 mh1 fd i pred (u : Int) frame previous previous2
          parseFrameLoop h ghh1 mh1 fd previous previous2 skippedFrames raw fuel (i + 1) frame
        else if enc = encELIAS_GAMMA_S32 then do
          let value ← readEliasGammaS32M
          let frame := scalarTail h ghh1 mh1 fd i pred value frame previous previous2
          parseFrameLoop h ghh1 mh1 fd previous previous2 skippedFrames raw fuel (i + 1) frame
        else if enc = encNULL then
          let frame := frame.set i (applyPrediction h ghh1 mh1 i pred 0 frame previous previous2)
          parseFrameLoop h ghh1 mh1 fd previous previous2 skippedFrames raw fuel (i + 1) frame
        else
          parseFrameLoop h ghh1 mh1 fd previous previous2 skippedFrames raw fuel (i + 1) frame
    else pure frame

/-- Unfolding of the field loop at a successor fuel value (the automatic
equation lemmas for this definition are unusable for rewriting, so the
unfolding is stated once, by `rfl`). -/
theorem parseFrameLoop_succ (h : LogHeader) (ghh1 : List Int) (mh1 : Option (List Int))
    (fd : FrameDef) (previous previous2 : Option (List Int))
    (skippedFrames : Int) (raw : Bool) (fuel i : Nat) (frame : List Int) :
    parseFrameLoop h ghh1 mh1 fd previous previous2 skippedFrames raw (fuel + 1) i frame =
    (if i < fd.fieldCount then
      if fd.predictor.getD i 0 = predINC then
        let v : Int := skippedFrames + 1 +
          (match previous with
           | some prev => prev.getD i 0
           | none => 0)
        parseFrameLoop h ghh1 mh1 fd previous previous2 skippedFrames raw fuel (i + 1) (frame.set i v)
      else
        let enc := fd.encoding.getD i 0
        let pred := if raw then predZERO else fd.predictor.getD i 0
        if enc = encSIGNED_VB then do
          byteAlignM
          let value ← readSignedVBM
          let frame := scalarTail h ghh1 mh1 fd i pred value frame previous previous2
          parseFrameLoop h ghh1 mh1 fd previous previous2 skippedFrames raw fuel (i + 1) frame
        else if enc = encUNSIGNED_VB then do
          byteAlignM
          let u ← readUnsignedVBM
          let frame := scalarTail h ghh1 mh1 fd i pred (u : Int) frame previous previous2
          parseFrameLoop h ghh1 mh1 fd previous previous2 skippedFrames raw fuel (i + 1) frame
        else if enc = encNEG_14BIT then do
          byteAlignM
          let u ← readUnsignedVBM
          let value := -(signExtend u 14)
          let frame := scalarTail h ghh1 mh1 fd i pred value frame previous previous2
          parseFrameLoop h ghh1 mh1 fd previous previous2 skippedFrames raw fuel (i + 1) frame
        else if enc = encTAG8_4S16 then do
          byteAlignM
          let values ← (if h.dataVersion < 2 then readTag8_4S16V1M else readTag8_4S16V2M)
          let r := groupTail h ghh1 mh1 fd raw values 4 i 0 frame previous previous2
          parseFrameLoop h ghh1 mh1 fd previous previous2 skippedFrames raw fuel r.1 r.2
        else if enc = encTAG2_3S32 then do
          byteAlignM
          let values ← readTag2_3S32M
          let r := groupTail h ghh1 mh1 fd raw values 3 i 0 frame previous previous2
          parseFrameLoop h ghh1 mh1 fd previous previous2 skippedFrames raw fuel r.1 r.2
        else if enc = encTAG8_8SVB then do
          byteAlignM
          let groupCount := tag8GroupCount fd i
          let values ← readTag8_8SVBM groupCount
          let r := groupTail h ghh1 mh1 fd raw values groupCount i 0 frame previous previous2
          parseFrameLoop h ghh1 mh1 fd previous previous2 skippedFrames raw fuel r.1 r.2
        else if enc = encELIAS_DELTA_U32 then do
          let u ← readEliasDeltaU32M
          let frame := scalarTail h ghh1 mh1 fd i pred (u : Int) frame previous previous2
          parseFrameLoop h ghh1 mh1 fd previous previous2 skippedFrames raw fuel (i + 1) frame
        else if enc = encELIAS_DELTA_S32 then do
          let value ← readEliasDeltaS32M
          let frame := scalarTail h ghh1 mh1 fd i pred value frame previous previous2
          parseFrameLoop h ghh1 mh1 fd previous previous2 skippedFrames raw fuel (i + 1) frame
        else if enc = encELIAS_GAMMA_U32 then do
          let u ← readEliasGammaU32M
          let frame := scalarTail h ghh1 mh1 fd i pred (u : Int) frame previous previous2
          parseFrameLoop h ghh1 mh1 fd previous previous2 skippedFrames raw fuel (i + 1) frame
        else if enc = encELIAS_GAMMA_S32 then do
          let value ← readEliasGammaS32M
          let frame := scalarTail h ghh1 mh1 fd i pred value frame previous previous2
          parseFrameLoop h ghh1 mh1 fd previous previous2 skippedFrames raw fuel (i + 1) frame
        else if enc = encNULL then
          let frame := frame.set i (applyPrediction h ghh1 mh1 i pred 0 frame previous previous2)
          parseFrameLoop h ghh1 mh1 fd previous previous2 skippedFrames raw fuel (i + 1) frame
        else
          parseFrameLoop h ghh1 mh1 fd previous previous2 skippedFrames raw fuel (i + 1) frame
    else pure frame) := rfl

/-- `_parse_frame(stream, frame_type, frame, previous, previous2,
skipped_frames, raw)`: early return (before the final `byte_align`) when
the frame type has no definition; otherwise run the field loop and
byte-align. -/
def parseFrameM (h : LogHeader) (ghh1 : List Int) (mh1 : Option (List Int))
    (frameType : Nat) (frame : List Int) (previous previous2 : Option (List Int))
    (skippedFrames : Int) (raw : Bool) : M (List Int) :=
  match h.getFrameDef frameType with
  | none => pure frame
  | some fd => do
    let frame ← parseFrameLoop h ghh1 mh1 fd previous previous2 skippedFrames raw fd.fieldCount 0 frame
    byteAlignM
    pure frame

/-- `_should_have_frame(header, frame_index)` (`frames.py`).  Python's `%`
and Lean's `Int` `%` (Euclidean) agree for the positive moduli of any
well-formed header (`I interval` is clamped to ≥ 1; the claims constrain
`P interval` to positive values). -/
def shouldHaveFrame (h : LogHeader) (frameIndex : Int) : Bool :=
  (frameIndex % h.frameIntervalI + h.frameIntervalPNum - 1) % h.frameIntervalPDenom
    < h.frameIntervalPNum

/-- Loop of `_count_skipped_frames`: count indices the schedule skips,
with the source's safety break at `count > 10000`.  `fuel = 10001` covers
every reachable iteration count. -/
def countSkippedLoop (h : LogHeader) : Nat → Int → Int → Int
  | 0, count, _fi => count
  | fuel + 1, count, fi =>
    if ¬ shouldHaveFrame h fi then
      let count := count + 1
      let fi := fi + 1
      if count > 10000 then count
      else countSkippedLoop h fuel count fi
    else count

/-- `_count_skipped_frames`. -/
def countSkippedFrames (h : LogHeader) (p : Parser) : Int :=
  if p.lastMainFrameIteration = -1 then 0
  else countSkippedLoop h 10001 0 (p.lastMainFrameIteration + 1)

/-- `_detect_time_rollover(timestamp)`: returns the 64-bit time and the
updated rollover accumulator (`x & 0xFFFFFFFF` on a Python int is its
residue modulo 2³², i.e. `Int` `%`). -/
def detectTimeRollover (p : Parser) (timestamp : Int) : Int × Int :=
  let acc :=
    if p.lastMainFrameTime ≠ -1 then
      let ts32 := timestamp % 4294967296
      let last32 := p.lastMainFrameTime % 4294967296
      if ts32 < last32 ∧ (ts32 - last32) % 4294967296 < maxTimeJump then
        p.timeRolloverAcc + 4294967296
      else p.timeRolloverAcc
    else p.timeRolloverAcc
  (timestamp % 4294967296 + acc, acc)

/-- `_validate_main_frame` (the current history slot is always present in
the source, so its `None` guard is vacuous). -/
def validateMainFrame (p : Parser) : Bool :=
  let current := p.ring.getD p.hist0 []
  let iteration := current.getD 0 0 % 4294967296
  let timeVal := current.getD 1 0
  if p.lastMainFrameIteration = -1 then true
  else
    let lastIter := p.lastMainFrameIteration % 4294967296
    iteration ≥ lastIter ∧ iteration < lastIter + maxIterJump ∧
    timeVal ≥ p.lastMainFrameTime ∧ timeVal < p.lastMainFrameTime + maxTimeJump

/-- `_invalidate_stream`. -/
def invalidateStream (p : Parser) : Parser :=
  { p with mainStreamValid := false, hist1 := none, hist2 := none }

/-- `_rotate_history(is_intraframe)`. -/
def rotateHistory (p : Parser) (isIntraframe : Bool) : Parser :=
  let p :=
    if isIntraframe then { p with hist1 := some p.hist0, hist2 := some p.hist0 }
    else { p with hist2 := p.hist1, hist1 := some p.hist0 }
  let ringIdx := (p.ringIdx + 1) % 3
  { p with ringIdx := ringIdx, hist0 := ringIdx }

/-- Shared commit tail of `parse_intraframe` / `parse_interframe`: when
the stream is valid, record the last iteration/time (iteration masked to
32 bits) and rotate the history ring; the returned flag is
`main_stream_valid`. -/
def mainFrameCommit (p : Parser) (isIntraframe : Bool) : Bool × Parser :=
  if p.mainStreamValid then
    let cur := p.ring.getD p.hist0 []
    let p' := { p with lastMainFrameIteration := cur.getD 0 0 % 4294967296,
                       lastMainFrameTime := cur.getD 1 0 }
    (true, rotateHistory p' isIntraframe)
  else (false, p)

/-- `parse_intraframe(stream, raw)`. -/
def parseIntraframeM (h : LogHeader) (raw : Bool) (p : Parser) : M (Bool × Parser) := do
  let current := p.ring.getD p.hist0 []
  let previous := p.hist1.map (fun ix => p.ring.getD ix [])
  let frame0 ← parseFrameM h p.gpsHomeHist1 previous 73 current previous none 0 raw
  let rt := detectTimeRollover p (frame0.getD 1 0)
  let frame := frame0.set 1 rt.1
  let p1 := { p with ring := p.ring.set p.hist0 frame, timeRolloverAcc := rt.2 }
  let p2 :=
    if ¬ raw ∧ p1.lastMainFrameIteration ≠ -1 ∧ ¬ validateMainFrame p1 then invalidateStream p1
    else { p1 with mainStreamValid := true }
  pure (mainFrameCommit p2 true)

/-- `parse_interframe(stream, raw)`. -/
def parseInterframeM (h : LogHeader) (raw : Bool) (p : Parser) : M (Bool × Parser) := do
  let current := p.ring.getD p.hist0 []
  let previous := p.hist1.map (fun ix => p.ring.getD ix [])
  let previous2 := p.hist2.map (fun ix => p.ring.getD ix [])
  let p0 := { p with lastSkippedFrames := countSkippedFrames h p }
  let frame0 ← parseFrameM h p0.gpsHomeHist1 previous 80 current previous previous2 p0.lastSkippedFrames raw
  let rt := detectTimeRollover p0 (frame0.getD 1 0)
  let frame := frame0.set 1 rt.1
  let p1 := { p0 with ring := p0.ring.set p0.hist0 frame, timeRolloverAcc := rt.2 }
  let p2 :=
    if p1.mainStreamValid ∧ ¬ raw ∧ ¬ validateMainFrame p1 then invalidateStream p1
    else p1
  pure (mainFrameCommit p2 false)

/-- `parse_gps_frame(stream, raw)`. -/
def parseGpsFrameM (h : LogHeader) (raw : Bool) (p : Parser) : M Parser := do
  let previous := p.hist1.map (fun ix => p.ring.getD ix [])
  let frame ← parseFrameM h p.gpsHomeHist1 previous 71 p.lastGps none none 0 raw
  let timeIdx := h.gpsFieldIndexes.time
  if timeIdx ≥ 0 then
    let rt := detectTimeRollover p (frame.getD timeIdx.toNat 0)
    pure { p with lastGps := frame.set timeIdx.toNat rt.1, timeRolloverAcc := rt.2 }
  else
    pure { p with lastGps := frame }

/-- `parse_gps_home_frame(stream, raw)`: parse into home slot 0, then
publish slot 0 into slot 1. -/
def parseGpsHomeFrameM (h : LogHeader) (raw : Bool) (p : Parser) : M Parser := do
  let previous := p.hist1.map (fun ix => p.ring.getD ix [])
  let frame ← parseFrameM h p.gpsHomeHist1 previous 72 p.gpsHomeHist0 none none 0 raw
  pure { p with gpsHomeHist0 := frame, gpsHomeHist1 := frame, gpsHomeValid := true }

/-- `parse_slow_frame(stream, raw)`. -/
def parseSlowFrameM (h : LogHeader) (raw : Bool) (p : Parser) : M Parser := do
  let previous := p.hist1.map (fun ix => p.ring.getD ix [])
  let frame ← parseFrameM h p.gpsHomeHist1 previous 83 p.lastSlow none none 0 raw
  pure { p with lastSlow := frame }

/-- `parse_event_frame(stream)`: the returned flag is true exactly when a
well-formed LOG_END was read, in which case the caller shrinks the stream
window to the current position (the one place `stream.end` is written,
performed by `decodeStep` right after this program runs — the source does
it inside the handler, after which the handler touches the stream no
further). -/
def parseEventFrameM (p : Parser) : M (EventData × Bool × Parser) := do
  let et ← readByteM
  let eventType : Int := match et with | some v => (v : Int) | none => -1
  if eventType = 0 then do
    let u ← readUnsignedVBM
    let ev : EventData := { eventType := eventType, syncBeepTime := (u : Int) + p.timeRolloverAcc }
    pure (ev, false, { p with lastEvent := ev })
  else if eventType = 13 then do
    let fb ← readByteM
    let fn : Int := match fb with | some v => (v : Int) | none => -1
    if fn > 127 then do
      let f ← readRawFloatM
      let ev : EventData := { eventType := eventType, adjustmentFunction := fn, newFloatValue := f }
      pure (ev, false, { p with lastEvent := ev })
    else do
      let v ← readSignedVBM
      let ev : EventData := { eventType := eventType, adjustmentFunction := fn, newValue := v }
      pure (ev, false, { p with lastEvent := ev })
  else if eventType = 14 then do
    let li ← readUnsignedVBM
    let ct ← readUnsignedVBM
    let ev : EventData := { eventType := eventType, logIteration := (li : Int),
                            currentTime := (ct : Int) + p.timeRolloverAcc }
    pure (ev, false, { p with lastEvent := ev,
                              lastMainFrameIteration := (li : Int),
                              lastMainFrameTime := ev.currentTime })
  else if eventType = 255 then do
    let endMsg ← readSliceM 11
    if endMsg = sLit "End of log" ++ [0] then
      let ev : EventData := { eventType := eventType }
      pure (ev, true, { p with lastEvent := ev })
    else
      let ev : EventData := { eventType := -1 }
      pure (ev, false, { p with lastEvent := ev })
  else
    let ev : EventData := { eventType := -1 }
    pure (ev, false, { p with lastEvent := ev })

/-! ### `flightlog.py`: the decode loop over one log window -/

/-- One entry of the `events` list built by `FlightLog.decode`. -/
structure EventOut where
  etype : Int
  syncBeepTime : Int
  logIteration : Int
  currentTime : Int
deriving Repr, DecidableEq

/-- State threaded through the main decode loop of `FlightLog.decode`. -/
structure DState where
  stream : BStream
  parser : Parser
  mainFrames : List (List Int)
  slowFrames : List (List Int)
  gpsFrames : List (List Int)
  events : List EventOut
  validCount : Nat
  corruptCount : Nat
deriving Repr, DecidableEq

/-- The committed row of a successful I/P parse:
`list(parser.main_history[1][:field_count])`. -/
def commitRow (p : Parser) (fieldCount : Nat) : List Int :=
  (p.ring.getD (p.hist1.getD 0) []).take fieldCount

/-- One iteration body of the `while not stream.eof` loop of
`FlightLog.decode`, dispatching on the peeked command byte `c` (the byte
itself is consumed by `read_byte` in every branch). -/
def decodeStep (h : LogHeader) (fieldCount : Nat) (raw : Bool) (c : Nat) (st : DState) : DState :=
  if c = 73 then
    let s1 := (readByteS st.stream).2
    let r := runM (parseIntraframeM h raw st.parser) s1
    let st := { st with stream := r.2, parser := r.1.2 }
    if r.1.1 ∧ st.parser.hist1.isSome then
      { st with mainFrames := st.mainFrames ++ [commitRow st.parser fieldCount],
                validCount := st.validCount + 1 }
    else { st with corruptCount := st.corruptCount + 1 }
  else if c = 80 then
    let s1 := (readByteS st.stream).2
    let r := runM (parseInterframeM h raw st.parser) s1
    let st := { st with stream := r.2, parser := r.1.2 }
    if r.1.1 ∧ st.parser.hist1.isSome then
      { st with mainFrames := st.mainFrames ++ [commitRow st.parser fieldCount],
                validCount := st.validCount + 1 }
    else { st with corruptCount := st.corruptCount + 1 }
  else if c = 69 then
    let s1 := (readByteS st.stream).2
    let r := runM (parseEventFrameM st.parser) s1
    let ev := r.1.1
    let s2 := if r.1.2.1 then { r.2 with dend := r.2.pos } else r.2
    let st := { st with stream := s2, parser := r.1.2.2 }
    if ev.eventType ≥ 0 then
      { st with events := st.events ++ [{ etype := ev.eventType, syncBeepTime := ev.syncBeepTime,
                                          logIteration := ev.logIteration,
                                          currentTime := ev.currentTime }] }
    else st
  else if c = 71 then
    let s1 := (readByteS st.stream).2
    let r := runM (parseGpsFrameM h raw st.parser) s1
    let st := { st with stream := r.2, parser := r.1 }
    match h.getFrameDef 71 with
    | some gdef => { st with gpsFrames := st.gpsFrames ++ [st.parser.lastGps.take gdef.fieldCount] }
    | none => st
  else if c = 72 ∧ st.stream.pos < st.stream.dend then
    let s1 := (readByteS st.stream).2
    let r := runM (parseGpsHomeFrameM h raw st.parser) s1
    { st with stream := r.2, parser := r.1 }
  else if c = 83 then
    let s1 := (readByteS st.stream).2
    let r := runM (parseSlowFrameM h raw st.parser) s1
    let st := { st with stream := r.2, parser := r.1 }
    match h.getFrameDef 83 with
    | some sdef => { st with slowFrames := st.slowFrames ++ [st.parser.lastSlow.take sdef.fieldCount] }
    | none => st
  else
    { st with stream := (readByteS st.stream).2, parser := invalidateStream st.parser }

/-- The `while not stream.eof` loop of `FlightLog.decode`.  Every
iteration consumes at least the command byte, so a fuel of
`data.length + 2` covers every run. -/
def decodeLoop (h : LogHeader) (fieldCount : Nat) (raw : Bool) : Nat → DState → DState
  | 0, st => st
  | fuel + 1, st =>
    if st.stream.eof then st
    else
      let pr := peekCharS st.stream
      match pr.1 with
      | none => { st with stream := pr.2 }
      | some c => decodeLoop h fieldCount raw fuel (decodeStep h fieldCount raw c { st with stream := pr.2 })

/-- Inner loop of `parse_headers`: read characters of one header line up
to a newline, NUL, or EOF. -/
def readLineLoop : Nat → List Nat → M (List Nat)
  | 0, acc => pure acc
  | fuel + 1, acc => do
    match ← readByteM with
    | none => pure acc
    | some ch => if ch = 10 ∨ ch = 0 then pure acc else readLineLoop fuel (acc ++ [ch])

/-- Outer loop of `parse_headers`: while not EOF and the next byte is
`H`, consume `H`, expect a space, read the line, parse it. -/
def parseHeadersLoop (lineFuel : Nat) : Nat → LogHeader → M LogHeader
  | 0, h => pure h
  | fuel + 1, h => do
    let eo ← getEofM
    if eo then pure h
    else do
      match ← peekCharM with
      | none => pure h
      | some c =>
        if c ≠ 72 then pure h
        else do
          let _ ← readByteM
          let space ← readByteM
          if space ≠ some 32 then pure h
          else do
            let line ← readLineLoop lineFuel []
            parseHeadersLoop lineFuel fuel (parseHeaderLine h line)

/-- `parse_headers(stream)`: each iteration of the outer loop consumes at
least two bytes and each inner iteration one, so `fuel` larger than the
buffer length covers every run. -/
def parseHeadersM (fuel : Nat) : M LogHeader := parseHeadersLoop fuel fuel {}

/-- `DecodedLog` (the fields the decode produces; the pandas conversion
layer is out of scope). -/
structure DecodedLog where
  header : LogHeader
  fieldNames : List (List Nat)
  mainFrames : List (List Int)
  slowFrames : List (List Int)
  gpsFrames : List (List Int)
  events : List EventOut
  validFrameCount : Nat
  corruptFrameCount : Nat
deriving Repr, DecidableEq

/-- GPS HOME_COORD predictor rewrite of `FlightLog.decode`: a second
consecutive HOME_COORD becomes HOME_COORD_1 (sequentially, so of three in
a row only the middle one is rewritten). -/
def rewriteHome (pred : List Int) (fieldCount : Nat) : List Int :=
  (List.range' 1 (fieldCount - 1)).foldl (fun pr i =>
    if pr.getD (i - 1) 0 = predHOME_COORD ∧ pr.getD i 0 = predHOME_COORD then
      pr.set i predHOME_COORD_1
    else pr) pred

/-- `FlightLog.decode` over the window `[0, dend)` of `data` (the log
container passes each log's start offset; a single log starting at offset
0 is decoded here, which is what every claim concerns).  `Except.error`
models the `ValueError` for a missing or empty I-frame definition. -/
def decodeWindow (data : List Nat) (dend : Nat) (raw : Bool) : Except Unit DecodedLog :=
  let s0 := mkStream data 0 dend
  let hr := runM (parseHeadersM (data.length + 1)) s0
  let header := hr.1
  let header :=
    match header.getFrameDef 71 with
    | some _ => header.updateFrameDef 71
        (fun gd => { gd with predictor := rewriteHome gd.predictor gd.fieldCount })
    | none => header
  match header.getFrameDef 73 with
  | none => .error ()
  | some idef =>
    if idef.fieldCount = 0 then .error ()
    else
      let fieldCount := idef.fieldCount
      let st0 : DState :=
        { stream := hr.2, parser := Parser.init, mainFrames := [], slowFrames := [],
          gpsFrames := [], events := [], validCount := 0, corruptCount := 0 }
      let stf := decodeLoop header fieldCount raw (data.length + 2) st0
      .ok { header := header,
            fieldNames := idef.fieldNames.take fieldCount,
            mainFrames := stf.mainFrames,
            slowFrames := stf.slowFrames,
            gpsFrames := stf.gpsFrames,
            events := stf.events,
            validFrameCount := stf.validCount,
            corruptFrameCount := stf.corruptCount }

/-! ### Concrete inputs shared by the end-to-end claims -/

/-- The header of spec scenarios S1/S2: only `Field I` lines, declaring
fields `loopIteration,time`, signed `0,0`, predictor `6,0` (INC, ZERO),
encoding `1,1` (UNSIGNED_VB, UNSIGNED_VB). -/
def s2Header : List Nat :=
  sLit "H Field I name:loopIteration,time\nH Field I signed:0,0\nH Field I predictor:6,0\nH Field I encoding:1,1\n"

/-- Scenario S2's literal byte stream: the S1/S2 header followed by the
frame bytes `I 0x00 0x64 P 0x02`. -/
def s2Input : List Nat := s2Header ++ [73, 0x00, 0x64, 80, 0x02]

/-- The S1/S2 header completed with the P-frame schema lines the described
behaviour requires: `Field P predictor 6,1` (INC, PREVIOUS) and
`Field P encoding 1,0` (UNSIGNED_VB, SIGNED_VB). -/
def s2HeaderP : List Nat :=
  s2Header ++ sLit "H Field P predictor:6,1\nH Field P encoding:1,0\n"

/-- The amended S2 byte stream: the completed header and the frame bytes
`I 0x64 P 0x02` (the I-frame carries only the time byte, since the INC
predictor consumes no bytes for `loopIteration`). -/
def s2InputP : List Nat := s2HeaderP ++ [73, 0x64, 80, 0x02]

deriving instance DecidableEq for Except

/-- Main-row table of a decode, for stating the end-to-end claims. -/
def decodeMain (data : List Nat) (dend : Nat) : Except Unit (List (List Int)) :=
  (decodeWindow data dend false).map DecodedLog.mainFrames

/-- C1.  The claim reads the scenario-S2 header and bytes literally.  On
the code, the P-frame def inherits only names and signedness from the
I-frame def, so its predictors are all ZERO (not INC) and its encodings
all SIGNED_VB; moreover the I-frame's INC predictor consumes no bytes, so
`0x00` is decoded as the time (giving row `[1, 0]`) and `0x64` becomes a
stray tag byte.  The decode therefore commits exactly one row `[1, 0]`,
not the claimed `[1, 100]`, `[2, 101]`. -/
theorem c1_counterexample :
    decodeMain s2Input s2Input.length = .ok [[1, 0]] ∧
    ([[1, 0]] : List (List Int)) ≠ [[1, 100], [2, 101]] :=
  ⟨by decide, by decide⟩

/-- C1 (amended): with the header completed by `Field P predictor:6,1`
and `Field P encoding:1,0` and the frame bytes `I 0x64 P 0x02`, the decode
commits exactly the two rows `[1, 100]` and `[2, 101]`: the I-frame's INC
predictor yields iteration skipped+1 = 1 and time decodes 100; the
P-frame's INC yields 2 and signed_vb(0x02) = 1 added to the previous time
100 gives 101. -/
theorem c1_amended :
    decodeMain s2InputP s2InputP.length = .ok [[1, 100], [2, 101]] ∧
    (decodeWindow s2InputP s2InputP.length false).map DecodedLog.validFrameCount = .ok 2 ∧
    (decodeWindow s2InputP s2InputP.length false).map DecodedLog.corruptFrameCount = .ok 0 :=
  ⟨by decide, by decide, by decide⟩

/-! ### C2: P-frame schema derivation -/

/-- A fresh header after `Field I name` / `Field I signed` /
`Field I width` lines with the given payloads. -/
def c2ParsedHeader (v1 v2 v3 : List Nat) : LogHeader :=
  parseHeaderLine
    (parseHeaderLine
      (parseHeaderLine {} (sLit "Field I name:" ++ v1))
      (sLit "Field I signed:" ++ v2))
    (sLit "Field I width:" ++ v3)

/-- C2.  Parsing `Field I name:a,b`, `Field I signed:1,0`,
`Field I width:8,8` gives field 0 width 8 in the I schema but width 4
(the default) in the P schema: widths are not cloned to the P-frame def,
refuting the claimed equality of per-field widths. -/
theorem c2_counterexample :
    ((c2ParsedHeader (sLit "a,b") (sLit "1,0") (sLit "8,8")).getFrameDef 73).map
      (fun fd => fd.fieldWidth.getD 0 4) = some 8 ∧
    ((c2ParsedHeader (sLit "a,b") (sLit "1,0") (sLit "8,8")).getFrameDef 80).map
      (fun fd => fd.fieldWidth.getD 0 4) = some 4 ∧
    (8 : Int) ≠ 4 :=
  ⟨by decide, by decide, by decide⟩




/-- Field names parsed from a `Field I name` payload. -/
def c2Names (v : List Nat) : List (List Nat) := parseFieldNames (pyStrip v)

/-- The I/P frame def after the name line: names and count set. -/
def c2FdN (v : List Nat) : FrameDef :=
  { FrameDef.default with fieldNames := c2Names v, fieldCount := (c2Names v).length }

/-- Header state after `Field I name:<v1>` on a fresh header. -/
def c2H1 (v1 : List Nat) : LogHeader :=
  { frameDefs := [(73, c2FdN v1), (80, c2FdN v1)],
    mainFieldIndexes := identifyMainFields {} (c2Names v1),
    rawHeaders := [(sLit "Field I name", pyStrip v1)] }

/-- The I/P frame def after the signed line. -/
def c2FdNS (v1 v2 : List Nat) : FrameDef :=
  { c2FdN v1 with fieldSigned := setInts (List.replicate maxFields 0) (parseCsvInts (pyStrip v2)) }

/-- Header state after the name and signed lines. -/
def c2H2 (v1 v2 : List Nat) : LogHeader :=
  { frameDefs := [(73, c2FdNS v1 v2), (80, c2FdNS v1 v2)],
    mainFieldIndexes := identifyMainFields {} (c2Names v1),
    rawHeaders := [(sLit "Field I name", pyStrip v1), (sLit "Field I signed", pyStrip v2)] }

/-- Header state after the name, signed and width lines: only the I-frame
def receives the widths. -/
def c2H3 (v1 v2 v3 : List Nat) : LogHeader :=
  { frameDefs := [(73, { c2FdNS v1 v2 with
                          fieldWidth := setInts (List.replicate maxFields 4) (parseCsvInts (pyStrip v3)) }),
                  (80, c2FdNS v1 v2)],
    mainFieldIndexes := identifyMainFields {} (c2Names v1),
    rawHeaders := [(sLit "Field I name", pyStrip v1), (sLit "Field I signed", pyStrip v2),
                   (sLit "Field I width", pyStrip v3)] }

/-- Effect of the `Field I name` line on a fresh header. -/
theorem c2_step1 (v1 : List Nat) :
    parseHeaderLine {} (sLit "Field I name:" ++ v1) = c2H1 v1 := rfl

/-- Effect of the `Field I signed` line after the name line. -/
theorem c2_step2 (v1 v2 : List Nat) :
    parseHeaderLine (c2H1 v1) (sLit "Field I signed:" ++ v2) = c2H2 v1 v2 := rfl

/-- Effect of the `Field I width` line after the first two. -/
theorem c2_step3 (v1 v2 v3 : List Nat) :
    parseHeaderLine (c2H2 v1 v2) (sLit "Field I width:" ++ v3) = c2H3 v1 v2 v3 := rfl

/-- C2 (amended): after parsing the three `Field I` lines into a fresh
header, the P-frame schema equals the I-frame schema in names and
signedness (both are cloned), but its widths remain the per-field default
of 4 — the `Field I width` line is applied to the I-frame def only. -/
theorem c2_amended (v1 v2 v3 : List Nat) :
    ((c2ParsedHeader v1 v2 v3).getFrameDef 80).map FrameDef.fieldNames =
      ((c2ParsedHeader v1 v2 v3).getFrameDef 73).map FrameDef.fieldNames ∧
    ((c2ParsedHeader v1 v2 v3).getFrameDef 80).map FrameDef.fieldSigned =
      ((c2ParsedHeader v1 v2 v3).getFrameDef 73).map FrameDef.fieldSigned ∧
    ((c2ParsedHeader v1 v2 v3).getFrameDef 80).map FrameDef.fieldWidth =
      some (List.replicate maxFields 4) := by
  have h : c2ParsedHeader v1 v2 v3 = c2H3 v1 v2 v3 := by
    rw [c2ParsedHeader, c2_step1, c2_step2, c2_step3]
  rw [h]
  exact ⟨rfl, rfl, rfl⟩

/-! ### C3: Elias round-trip (spec-side encoders) -/

/-- The `k` low bits of `n`, MSB first. -/
def natBitsAux (n : Nat) : Nat → List Nat
  | 0 => []
  | k + 1 => (n >>> k &&& 1) :: natBitsAux n k

/-- Modelled from the spec: the standard Elias-Gamma encoding of a
positive integer `n` — `bitlen(n) - 1` zero bits, then the `bitlen(n)`
bits of `n` MSB first. -/
def specEliasGammaEncode (n : Nat) : List Nat :=
  List.replicate (bitLen n - 1) 0 ++ natBitsAux n (bitLen n)

/-- Modelled from the spec: the standard Elias-Delta encoding of a
positive integer `n` — with `N = bitlen(n)` and `L = bitlen(N)`, `L - 1`
zero bits, the `L` bits of `N`, then the `N - 1` low bits of `n`. -/
def specEliasDeltaEncode (n : Nat) : List Nat :=
  let N := bitLen n
  List.replicate (bitLen N - 1) 0 ++ natBitsAux N (bitLen N) ++ natBitsAux n (N - 1)

/-- One byte from up to eight MSB-first bits (zero padded on the right). -/
def bitsToByte (bs : List Nat) : Nat :=
  (bs.take 8 ++ List.replicate (8 - (bs.take 8).length) 0).foldl (fun a b => a * 2 + b) 0

/-- Pack an MSB-first bit string into bytes, zero padding the tail. -/
def packBitsAux : Nat → List Nat → List Nat
  | 0, _ => []
  | _, [] => []
  | fuel + 1, bs => bitsToByte bs :: packBitsAux fuel (bs.drop 8)

/-- Pack an MSB-first bit string into bytes. -/
def packBits (bits : List Nat) : List Nat := packBitsAux bits.length bits

/-- C3.  The standard Elias-Gamma encoding of `u + 1 = 2` (for `u = 1`)
packs to the single byte 0x40, and `read_elias_gamma_u32` decodes it to 0,
not 1: after counting `val_bits` unary zeros the source reads only
`val_bits - 1` value bits and sets `result = (1 << (val_bits - 1)) | r`,
one short of the standard code, which its own module docstring
("Mirrors blackbox-tools/src/decoders.c") and the Elias-Delta sibling
implement.  The Delta decoder, in contrast, round-trips the same value:
the standard Elias-Delta encoding of 2 also packs to 0x40 and decodes
to 1. -/
theorem c3_gamma_failing_input :
    packBits (specEliasGammaEncode (1 + 1)) = [0x40] ∧
    (runM readEliasGammaU32M (mkStream0 (packBits (specEliasGammaEncode (1 + 1))))).1 = 0 ∧
    (0 : Nat) ≠ 1 ∧
    packBits (specEliasDeltaEncode (1 + 1)) = [0x40] ∧
    (runM readEliasDeltaU32M (mkStream0 (packBits (specEliasDeltaEncode (1 + 1))))).1 = 1 :=
  ⟨by decide, by decide, by decide, by decide, by decide⟩

/-! ### C9: unsigned VB range -/

/-- C9.  The five-byte VB encoding FF FF FF FF 7F decodes to 2³⁵ − 1 =
34359738367, outside `[0, 2³²)`: the source accumulates
`(c & 0x7F) << 28` for the fifth byte without the 32-bit mask of the C
original (`read_unsigned_vb`'s own docstring promises an unsigned 32-bit
integer).  The other two parts of the claim hold: exactly 5 bytes are
consumed, and a sixth continuation byte yields 0. -/
theorem c9_vb_overflow :
    (runM readUnsignedVBM (mkStream0 [0xFF, 0xFF, 0xFF, 0xFF, 0x7F])).1 = 34359738367 ∧
    ¬ ((34359738367 : Nat) < 2 ^ 32) ∧
    (runM readUnsignedVBM (mkStream0 [0xFF, 0xFF, 0xFF, 0xFF, 0x7F])).2.pos = 5 ∧
    (runM readUnsignedVBM (mkStream0 [0xFF, 0xFF, 0xFF, 0xFF, 0xFF, 0x01])).1 = 0 :=
  ⟨by decide, by decide, by decide, by decide⟩

/-! ### C8: bit-read safety -/

/-- A one-byte window into a two-byte buffer, cursor mid-byte
(`bitPos = 0`, one bit left in byte 0). -/
def c8sA : BStream :=
  { data := [0, 0], size := 2, dstart := 0, dend := 1, pos := 0, bitPos := 0, eof := false }

/-- The same stream state with a different byte beyond the window end. -/
def c8sB : BStream :=
  { data := [0, 255], size := 2, dstart := 0, dend := 1, pos := 0, bitPos := 0, eof := false }

/-- C8.  Two streams agreeing on every byte below `end` (and on cursor
and window) give different `read_bits(8)` results, so the read consulted
a byte at or beyond `end`: the underflow check uses the rough byte count
`ceil(n/8)` and ignores the bit offset, so a mid-byte `read_bits` may walk
one byte past the window (in Python, past the physical buffer end this
raises IndexError). -/
theorem c8_counterexample :
    (∀ i, i < c8sA.dend → c8sA.data.getD i 0 = c8sB.data.getD i 0) ∧
    c8sA.dend = c8sB.dend ∧ c8sA.pos = c8sB.pos ∧ c8sA.bitPos = c8sB.bitPos ∧
    (readBitsS 8 c8sA).1 = some 0 ∧ (readBitsS 8 c8sB).1 = some 127 ∧
    (readBitsS 8 c8sA).1 ≠ (readBitsS 8 c8sB).1 :=
  ⟨by decide, by decide, by decide, by decide, by decide, by decide, by decide⟩

/-! ### C6: schedule density (counterexample part) -/

/-- A header carrying only the schedule parameters. -/
def schedHeader (i pn pd : Nat) : LogHeader :=
  { frameIntervalI := (i : Int), frameIntervalPNum := (pn : Int), frameIntervalPDenom := (pd : Int) }

/-- C6.  With `I_interval = 1` and `P interval 1/2` (in lowest terms,
1 ≤ P_num ≤ P_denom), `should_have_frame` holds at every index — the
formula depends only on `n mod I_interval` — so the window `[0, 2)` of
length `I_interval · P_denom` contains 2 scheduled indices, not
`I_interval · P_num = 1`. -/
theorem c6_counterexample :
    (List.range (1 * 2)).countP (fun k => shouldHaveFrame (schedHeader 1 1 2) ((0 + k : Nat) : Int)) = 2 ∧
    (2 : Nat) ≠ 1 * 1 ∧ Nat.gcd 1 2 = 1 :=
  ⟨by decide, by decide, by decide⟩

/-! ### C5: corruption recovery (counterexample part) -/

/-- A valid I-frame followed by the unknown tag byte 0x5A. -/
def c5Input : List Nat := s2HeaderP ++ [73, 0x64, 0x5A]

/-- C5.  Decoding a log whose frame stream is a valid I-frame followed by
the unknown tag 0x5A commits the row `[1, 100]` and leaves
`corrupt_frame_count = 0`: the unknown-tag branch of the main loop only
consumes the byte and clears the history (`_invalidate_stream`), it does
not increment the counter the claim says it increments. -/
theorem c5_counterexample :
    (decodeWindow c5Input c5Input.length false).map
      (fun d => (d.mainFrames, d.corruptFrameCount, d.validFrameCount)) = .ok ([[1, 100]], 0, 1) ∧
    (0 : Nat) ≠ 1 :=
  ⟨by decide, by decide⟩

/-! ### C4: prefix stability (counterexample part) -/

/-- The amended-S2 header with frame bytes `I 0x64 P 0xAC 0x02`: the
P-frame's time delta 150 is VB-encoded in the two bytes AC 02. -/
def c4Input : List Nat := s2HeaderP ++ [73, 0x64, 80, 0xAC, 0x02]

/-- C4.  Decoding the window that cuts the final VB byte commits
`[1,100], [2,100]` — the truncated VB read returns 0, the frame still
validates, and the row is committed — while the full window commits
`[1,100], [2,250]`.  The first `n(k) = 2` rows of the longer decode are
not bit-identical to the shorter table: a row decoded from a frame
truncated at the window edge can change when the window grows. -/
theorem c4_counterexample :
    decodeMain c4Input (c4Input.length - 1) = .ok [[1, 100], [2, 100]] ∧
    decodeMain c4Input c4Input.length = .ok [[1, 100], [2, 250]] ∧
    ¬ (([[1, 100], [2, 100]] : List (List Int)) <+: [[1, 100], [2, 250]]) :=
  ⟨by decide, by decide, by decide⟩

/-! ### C7: raw mode (counterexample part) -/

/-- The I-frame def of the S1/S2 header as a direct literal: two fields,
predictors INC and ZERO, encodings UNSIGNED_VB twice. -/
def c7Fd : FrameDef :=
  { FrameDef.default with
    fieldNames := [sLit "loopIteration", sLit "time"], fieldCount := 2,
    predictor := setInts (List.replicate maxFields 0) [6, 0],
    encoding := setInts (List.replicate maxFields 0) [1, 1] }

/-- A header carrying only that I-frame def. -/
def c7H : LogHeader := { frameDefs := [(73, c7Fd)] }

/-- Modelled from the spec: "In raw mode, all predictors are treated as
ZERO" — a `_parse_frame` variant in which raw mode replaces every
predictor, including INC, by ZERO (so an INC field decodes its encoded
scalar like any other field), to compare with the source's `_parse_frame`,
whose INC branch runs before the raw override. -/
def specRawParseFrameM (h : LogHeader) (ghh1 : List Int) (mh1 : Option (List Int))
    (frameType : Nat) (frame : List Int) (previous previous2 : Option (List Int))
    (skippedFrames : Int) : M (List Int) :=
  match h.getFrameDef frameType with
  | none => pure frame
  | some fd => do
    let fd' := { fd with predictor := fd.predictor.map (fun _ => predZERO) }
    let frame ← parseFrameLoop h ghh1 mh1 fd' previous previous2 skippedFrames false fd'.fieldCount 0 frame
    byteAlignM
    pure frame

/-- C7.  Raw-mode decode of the I-frame bytes `0x64` under the S1/S2
schema: the source's `_parse_frame` still runs the INC predictor (the INC
branch precedes the raw override), producing `[1, 100]`; treating every
predictor as ZERO as the claim states would instead decode the scalar
0x64 into the iteration field, producing `[100, 0]`. -/
theorem c7_counterexample :
    (runM (parseFrameM c7H [] none 73 (List.replicate maxFields 0) none none 0 true)
        (mkStream0 [0x64])).1.take 2 = [1, 100] ∧
    (runM (specRawParseFrameM c7H [] none 73 (List.replicate maxFields 0) none none 0)
        (mkStream0 [0x64])).1.take 2 = [100, 0] ∧
    ([1, 100] : List Int) ≠ [100, 0] :=
  ⟨by decide, by decide, by decide⟩

/-! ### C10: firmware-type edge case and gyro-scale conversion -/

/-- The value stored for `gyro.scale:0x3f800000` (the binary32 bits of
1.0) when the firmware type is not BASEFLIGHT:
`1.0 · (math.pi / 180.0) · 0.000001` in binary64 arithmetic. -/
def c10Converted : ℚ := f64mul (f64mul (decodeF32 0x3f800000) (f64div piF64 180)) e6F64

/-- Reduction of a `Firmware type` header line: the raw header is stored
and the firmware type becomes CLEANFLIGHT exactly when the stripped value
is `Cleanflight`, BASEFLIGHT otherwise. -/
theorem c10_ftype_line (h : LogHeader) (v : List Nat) :
    parseHeaderLine h (sLit "Firmware type:" ++ v) =
      (if pyStrip v = sLit "Cleanflight" then
        { h with rawHeaders := storeRaw h.rawHeaders (sLit "Firmware type") (pyStrip v),
                 sysConfig := { h.sysConfig with firmwareType := .cleanflight } }
      else
        { h with rawHeaders := storeRaw h.rawHeaders (sLit "Firmware type") (pyStrip v),
                 sysConfig := { h.sysConfig with firmwareType := .baseflight } }) := rfl

/-- Reduction of the `gyro.scale:0x3f800000` header line: the stored
scale is the hex-decoded binary32 value, converted by
`· (math.pi/180.0) · 0.000001` unless the firmware type is BASEFLIGHT. -/
theorem c10_gyro_line (h : LogHeader) :
    parseHeaderLine h (sLit "gyro.scale:0x3f800000") =
      { h with rawHeaders := storeRaw h.rawHeaders (sLit "gyro.scale") (sLit "0x3f800000"),
               sysConfig := { h.sysConfig with gyroScale :=
                 (if h.sysConfig.firmwareType ≠ .baseflight then c10Converted
                  else decodeF32 0x3f800000) } } := rfl

/-- C10.  A `Firmware type` line with any stripped value other than
`Cleanflight` — in particular `Betaflight` — sets the firmware type to
BASEFLIGHT; BETAFLIGHT is set by a `Firmware revision` line whose value
starts with `Betaflight `.  Consequently a `gyro.scale` line parsed while
the type is BASEFLIGHT stores the hex-decoded binary32 unconverted (bits
0x3f800000 store exactly 1), while under any other firmware type it is
multiplied by `(math.pi/180.0) · 0.000001` in binary64, giving a value
different from the raw decode. -/
theorem c10_firmware_type_gyro (h : LogHeader) (v : List Nat) :
    (pyStrip v ≠ sLit "Cleanflight" →
      (parseHeaderLine h (sLit "Firmware type:" ++ v)).sysConfig.firmwareType = .baseflight) ∧
    (parseHeaderLine h (sLit "Firmware type:" ++ sLit "Betaflight")).sysConfig.firmwareType
      = .baseflight ∧
    (parseHeaderLine h (sLit "Firmware revision:Betaflight 4.2.0")).sysConfig.firmwareType
      = .betaflight ∧
    (h.sysConfig.firmwareType = .baseflight →
      (parseHeaderLine h (sLit "gyro.scale:0x3f800000")).sysConfig.gyroScale = decodeF32 0x3f800000
        ∧ decodeF32 0x3f800000 = 1) ∧
    (h.sysConfig.firmwareType ≠ .baseflight →
      (parseHeaderLine h (sLit "gyro.scale:0x3f800000")).sysConfig.gyroScale = c10Converted
        ∧ c10Converted ≠ decodeF32 0x3f800000) := by
  refine ⟨?_, ?_, ?_, ?_, ?_⟩
  · intro hv
    rw [c10_ftype_line, if_neg hv]
  · rw [c10_ftype_line, if_neg (by decide : ¬ (pyStrip (sLit "Betaflight") = sLit "Cleanflight"))]
  · rfl
  · intro hx
    have hnn : ¬ (h.sysConfig.firmwareType ≠ FirmwareType.baseflight) := fun hne => hne hx
    rw [c10_gyro_line]
    exact ⟨by simp only [if_neg hnn], by decide⟩
  · intro hne
    rw [c10_gyro_line]
    exact ⟨by simp only [if_pos hne], by decide⟩

/-- C10 witness: the theorem instantiated at concrete headers — a fresh
header with the `Betaflight` firmware-type value, a BASEFLIGHT header for
the unconverted branch, and the fresh (UNKNOWN) header for the converted
branch. -/
theorem c10_firmware_type_gyro_witness :
    (parseHeaderLine {} (sLit "Firmware type:" ++ sLit "Betaflight")).sysConfig.firmwareType
      = .baseflight ∧
    ((parseHeaderLine (parseHeaderLine {} (sLit "Firmware type:" ++ sLit "Betaflight"))
        (sLit "gyro.scale:0x3f800000")).sysConfig.gyroScale = decodeF32 0x3f800000
      ∧ decodeF32 0x3f800000 = 1) ∧
    ((parseHeaderLine {} (sLit "gyro.scale:0x3f800000")).sysConfig.gyroScale = c10Converted
      ∧ c10Converted ≠ decodeF32 0x3f800000) :=
  ⟨(c10_firmware_type_gyro {} (sLit "Betaflight")).1 (by decide),
   (c10_firmware_type_gyro (parseHeaderLine {} (sLit "Firmware type:" ++ sLit "Betaflight")) []).2.2.2.1
     (by decide),
   (c10_firmware_type_gyro ({} : LogHeader) []).2.2.2.2 (by decide)⟩

/-- C5 (amended): when the main loop peeks an unknown frame-tag byte (not
one of `I P E G H S`), the step consumes exactly that byte and replaces
the parser by `_invalidate_stream` of itself — `main_stream_valid` becomes
false and the prev/prev2 history slots become none — while the committed
main rows, the other frame tables, the event list and both counters are
left untouched (in particular `corrupt_frame_count` is NOT incremented;
it only counts rejected I/P frames), and the loop then continues with the
next byte. -/
theorem c5_amended (h : LogHeader) (fieldCount : Nat) (raw : Bool) (c : Nat) (st : DState)
    (hc : c ∉ ([73, 80, 69, 71, 72, 83] : List Nat)) :
    decodeStep h fieldCount raw c st =
      { st with stream := (readByteS st.stream).2, parser := invalidateStream st.parser } ∧
    (invalidateStream st.parser).mainStreamValid = false ∧
    (invalidateStream st.parser).hist1 = none ∧
    (invalidateStream st.parser).hist2 = none := by
  simp only [List.mem_cons, List.not_mem_nil, or_false, not_or] at hc
  obtain ⟨h73, h80, h69, h71, h72, h83⟩ := hc
  refine ⟨?_, rfl, rfl, rfl⟩
  rw [decodeStep, if_neg h73, if_neg h80, if_neg h69, if_neg h71,
      if_neg (fun hco => h72 hco.1), if_neg h83]

/-- C5 witness: the amended step lemma applied to the unknown tag 0x5A on
a concrete state. -/
theorem c5_amended_witness :
    ((0x5A : Nat) ∉ ([73, 80, 69, 71, 72, 83] : List Nat)) ∧
    (decodeStep {} 2 false 0x5A
        { stream := mkStream0 [0x5A], parser := Parser.init, mainFrames := [[1, 100]],
          slowFrames := [], gpsFrames := [], events := [], validCount := 1, corruptCount := 0 } =
      { stream := (readByteS (mkStream0 [0x5A])).2, parser := invalidateStream Parser.init,
        mainFrames := [[1, 100]], slowFrames := [], gpsFrames := [], events := [],
        validCount := 1, corruptCount := 0 }) :=
  ⟨by decide,
   (c5_amended {} 2 false 0x5A
      { stream := mkStream0 [0x5A], parser := Parser.init, mainFrames := [[1, 100]],
        slowFrames := [], gpsFrames := [], events := [], validCount := 1, corruptCount := 0 }
      (by decide)).1⟩

/-! ### C7: raw mode (amended part) -/

/-- The raw-mode predictor transformation the code actually performs:
every predictor other than INC becomes ZERO, INC is kept. -/
def zeroNonInc (fd : FrameDef) : FrameDef :=
  { fd with predictor := fd.predictor.map (fun p => if p = predINC then p else predZERO) }

/-- `zeroNonInc` applied to every frame def of a header. -/
def zeroNonIncHeader (h : LogHeader) : LogHeader :=
  { h with frameDefs := h.frameDefs.map (fun p => (p.1, zeroNonInc p.2)) }

/-- `getD` through a zero-preserving map. -/
theorem getD_map_zero (f : Int → Int) (hf : f 0 = 0) (l : List Int) (i : Nat) :
    (l.map f).getD i 0 = f (l.getD i 0) := by
  induction l generalizing i with
  | nil => simp [hf]
  | cons a t ih =>
    cases i with
    | zero => simp
    | succ j => simpa using ih j

/-- The INC predictor value falls through every branch of
`_apply_prediction`, so it contributes nothing, exactly like ZERO. -/
theorem applyPrediction_inc (h : LogHeader) (ghh1 : List Int) (mh1 : Option (List Int))
    (i : Nat) (v : Int) (fr : List Int) (p1 p2 : Option (List Int)) :
    applyPrediction h ghh1 mh1 i predINC v fr p1 p2 = v := rfl

/-- ZERO contributes nothing in `_apply_prediction`. -/
theorem applyPrediction_zero (h : LogHeader) (ghh1 : List Int) (mh1 : Option (List Int))
    (i : Nat) (v : Int) (fr : List Int) (p1 p2 : Option (List Int)) :
    applyPrediction h ghh1 mh1 i predZERO v fr p1 p2 = v := rfl

/-- The group tail behaves identically under raw mode and under the
`zeroNonInc` predictor transformation with raw off. -/
theorem groupTail_raw (h : LogHeader) (ghh1 : List Int) (mh1 : Option (List Int))
    (fd : FrameDef) (values : List Int) (n i j : Nat) (frame : List Int)
    (p1 p2 : Option (List Int)) :
    groupTail h ghh1 mh1 fd true values n i j frame p1 p2 =
    groupTail (zeroNonIncHeader h) ghh1 mh1 (zeroNonInc fd) false values n i j frame p1 p2 := by
  induction n generalizing i j frame with
  | zero => rfl
  | succ m ih =>
    by_cases hi : i < fd.fieldCount
    · show (if i < fd.fieldCount then
          groupTail h ghh1 mh1 fd true values m (i + 1) (j + 1)
            (frame.set i (applyPrediction h ghh1 mh1 i predZERO (values.getD j 0) frame p1 p2))
            p1 p2
        else (i, frame)) =
        (if i < fd.fieldCount then
          groupTail (zeroNonIncHeader h) ghh1 mh1 (zeroNonInc fd) false values m (i + 1) (j + 1)
            (frame.set i (applyPrediction h ghh1 mh1 i ((zeroNonInc fd).predictor.getD i 0)
              (values.getD j 0) frame p1 p2)) p1 p2
        else (i, frame))
      rw [if_pos hi, if_pos hi]
      have hz : (zeroNonInc fd).predictor =
          fd.predictor.map (fun p => if p = predINC then p else predZERO) := rfl
      have hpred : (zeroNonInc fd).predictor.getD i 0 =
          (if fd.predictor.getD i 0 = predINC then fd.predictor.getD i 0 else predZERO) := by
        rw [hz, getD_map_zero _ (by decide)]
      rw [hpred]
      by_cases hinc : fd.predictor.getD i 0 = predINC
      · simp only [if_pos hinc]
        rw [hinc, applyPrediction_inc, applyPrediction_zero]
        exact ih (i + 1) (j + 1) _
      · simp only [if_neg hinc]
        exact ih (i + 1) (j + 1) _
    · show (if i < fd.fieldCount then _ else ((i : Nat), frame)) =
        (if i < fd.fieldCount then _ else ((i : Nat), frame))
      rw [if_neg hi, if_neg hi]

/-- The field loop behaves identically under raw mode and under the
`zeroNonInc` predictor transformation with raw off. -/
theorem parseFrameLoop_raw (h : LogHeader) (ghh1 : List Int) (mh1 : Option (List Int))
    (fd : FrameDef) (p1 p2 : Option (List Int)) (sk : Int)
    (fuel i : Nat) (frame : List Int) :
    parseFrameLoop h ghh1 mh1 fd p1 p2 sk true fuel i frame =
    parseFrameLoop (zeroNonIncHeader h) ghh1 mh1 (zeroNonInc fd) p1 p2 sk false fuel i frame := by
  induction fuel generalizing i frame with
  | zero => rfl
  | succ m ih =>
    rw [parseFrameLoop_succ, parseFrameLoop_succ]
    have hcount : (zeroNonInc fd).fieldCount = fd.fieldCount := rfl
    have henc : (zeroNonInc fd).encoding = fd.encoding := rfl
    have hscalar : scalarTail (zeroNonIncHeader h) ghh1 mh1 (zeroNonInc fd) =
        scalarTail h ghh1 mh1 fd := rfl
    have happ : applyPrediction (zeroNonIncHeader h) = applyPrediction h := rfl
    have htag : tag8GroupCount (zeroNonInc fd) = tag8GroupCount fd := rfl
    have hdv : (zeroNonIncHeader h).dataVersion = h.dataVersion := rfl
    have hz : (zeroNonInc fd).predictor =
        fd.predictor.map (fun p => if p = predINC then p else predZERO) := rfl
    have hpred : (zeroNonInc fd).predictor.getD i 0 =
        (if fd.predictor.getD i 0 = predINC then fd.predictor.getD i 0 else predZERO) := by
      rw [hz, getD_map_zero _ (by decide)]
    have e1 : ∀ x : Int, (if (true : Bool) = true then predZERO else x) = predZERO :=
      fun x => if_pos rfl
    have e2 : ∀ x : Int, (if (false : Bool) = true then predZERO else x) = x :=
      fun x => if_neg (by decide)
    rw [hcount, henc, hscalar, happ, htag, hdv, hpred, e1, e2]
    by_cases hi : i < fd.fieldCount
    · simp only [if_pos hi]
      by_cases hinc : fd.predictor.getD i 0 = predINC
      · simp only [if_pos hinc]
        exact ih (i + 1) _
      · simp only [if_neg hinc]
        simp only [ih, groupTail_raw h ghh1 mh1 fd]
        rw [if_neg (by decide : ¬(predZERO = predINC))]
    · simp only [if_neg hi]

/-- C7 (amended): with `raw=true`, `_parse_frame` reconstructs every
field whose predictor is not INC with the predictor treated as ZERO
(the raw decoded scalar, truncated per width), but a field whose
predictor is INC is still reconstructed as `skipped_frames + 1 + prev[i]`
without reading the stream: raw decoding coincides with non-raw decoding
under the schema transformation that zeroes every predictor except INC. -/
theorem c7_amended (h : LogHeader) (ghh1 : List Int) (mh1 : Option (List Int))
    (frameType : Nat) (frame : List Int) (p1 p2 : Option (List Int)) (sk : Int) :
    parseFrameM h ghh1 mh1 frameType frame p1 p2 sk true =
    parseFrameM (zeroNonIncHeader h) ghh1 mh1 frameType frame p1 p2 sk false := by
  rw [parseFrameM, parseFrameM]
  have hget : (zeroNonIncHeader h).getFrameDef frameType =
      (h.getFrameDef frameType).map zeroNonInc := by
    rw [zeroNonIncHeader, LogHeader.getFrameDef, LogHeader.getFrameDef]
    induction h.frameDefs with
    | nil => rfl
    | cons a t ih =>
      by_cases ha : a.1 = frameType
      · simp [List.find?, ha]
      · simpa [List.find?, ha] using ih
  rw [hget]
  cases h.getFrameDef frameType with
  | none => rfl
  | some fd =>
    simp only [Option.map_some]
    have hloop := parseFrameLoop_raw h ghh1 mh1 fd p1 p2 sk fd.fieldCount 0 frame
    exact congrArg (fun x => x >>= fun fr => byteAlignM >>= fun _ => pure fr) hloop

/-! ### C8: bit-read safety (amended part) -/

/-- `readBitsLoop` only consults buffer bytes strictly below
`pos + (n + 14 - bitPos) / 8` (the ceiling of the touched byte count):
two buffers agreeing there give identical results. -/
theorem readBitsLoop_agree (d d' : List Nat) :
    ∀ (n pos bitPos acc : Nat), bitPos ≤ 7 →
    (∀ i, i < pos + (n + 14 - bitPos) / 8 → d.getD i 0 = d'.getD i 0) →
    readBitsLoop d n pos bitPos acc = readBitsLoop d' n pos bitPos acc := by
  intro n
  induction n with
  | zero => intro pos bitPos acc _ _; rfl
  | succ m ih =>
    intro pos bitPos acc hbp h
    have hd : d.getD pos 0 = d'.getD pos 0 := by
      apply h
      have h8 : 8 ≤ m + 1 + 14 - bitPos := by omega
      have h1 : 1 ≤ (m + 1 + 14 - bitPos) / 8 :=
        (Nat.one_le_div_iff (by norm_num)).mpr h8
      omega
    simp only [readBitsLoop, hd]
    by_cases hz : bitPos = 0
    · rw [if_pos hz, if_pos hz]
      refine ih (pos + 1) 7 _ (by norm_num) ?_
      intro i hi
      apply h
      have e : m + 1 + 14 - bitPos = m + 7 + 8 := by omega
      rw [e, Nat.add_div_right _ (by norm_num)]
      have e2 : m + 14 - 7 = m + 7 := by omega
      rw [e2] at hi
      omega
    · rw [if_neg hz, if_neg hz]
      refine ih pos (bitPos - 1) _ (by omega) ?_
      intro i hi
      apply h
      have e : m + 1 + 14 - bitPos = m + 14 - (bitPos - 1) := by omega
      rw [e]
      exact hi

/-- Final byte cursor of `readBitsLoop`: reading `n` bits from
`(pos, bitPos)` lands at byte `pos + (n + 7 - bitPos) / 8`. -/
theorem readBitsLoop_cursor (d : List Nat) :
    ∀ (n pos bitPos acc : Nat), bitPos ≤ 7 →
    (readBitsLoop d n pos bitPos acc).2.1 = pos + (n + 7 - bitPos) / 8 := by
  intro n
  induction n with
  | zero =>
    intro pos bitPos acc hbp
    simp only [readBitsLoop]
    rw [Nat.div_eq_of_lt (by omega)]
    omega
  | succ m ih =>
    intro pos bitPos acc hbp
    simp only [readBitsLoop]
    by_cases hz : bitPos = 0
    · rw [if_pos hz, ih (pos + 1) 7 _ (by norm_num)]
      have e2 : m + 7 - 7 = m := by omega
      have e : m + 1 + 7 - bitPos = m + 8 := by omega
      rw [e2, e, Nat.add_div_right _ (by norm_num)]
      omega
    · rw [if_neg hz, ih pos (bitPos - 1) _ (by omega)]
      have e : m + 7 - (bitPos - 1) = m + 1 + 7 - bitPos := by omega
      rw [e]

/-- C8 (amended): for a BYTE-ALIGNED entry (`bit_pos = 7`), `read_bits(n)`
is safe: when fewer than `ceil(n/8)` bytes remain before `end` it sets the
EOF flag, moves the cursor to `end` and returns EOF; otherwise it returns
the `n` requested bits, advances the byte cursor by `n / 8` (staying at
most `ceil(n/8)` past the entry, hence within the window), preserves the
EOF flag, and never consults a byte at or beyond `end`: any buffer
agreeing below `end` gives the identical result.  (The unrestricted
claim fails mid-byte, see the C8 counterexample.) -/
theorem c8_amended (s : BStream) (n : Nat) (d' : List Nat)
    (halign : s.bitPos = 7)
    (hagree : ∀ i, i < s.dend → d'.getD i 0 = s.data.getD i 0) :
    (s.dend < s.pos + (n + 7) / 8 →
      readBitsS n s = (none, { s with pos := s.dend, eof := true, bitPos := 7 })) ∧
    (s.pos + (n + 7) / 8 ≤ s.dend →
      (readBitsS n s).1 = some (readBitsLoop s.data n s.pos 7 0).1 ∧
      (readBitsS n s).2.pos = s.pos + n / 8 ∧
      (readBitsS n s).2.eof = s.eof ∧
      readBitsS n { s with data := d' } =
        ((readBitsS n s).1, { (readBitsS n s).2 with data := d' })) := by
  have hnum : n + 8 - 1 = n + 7 := by omega
  constructor
  · intro hlt
    simp only [readBitsS, hnum]
    rw [if_pos (by omega)]
  · intro hle
    have hcond : ¬ s.dend < s.pos + (n + 8 - 1) / 8 := by rw [hnum]; omega
    have hloop : readBitsLoop d' n s.pos s.bitPos 0 =
        readBitsLoop s.data n s.pos s.bitPos 0 := by
      refine readBitsLoop_agree d' s.data n s.pos s.bitPos 0 (by rw [halign]) ?_
      intro i hi
      apply hagree
      rw [halign] at hi
      have e : n + 14 - 7 = n + 7 := by omega
      rw [e] at hi
      omega
    refine ⟨?_, ?_, ?_, ?_⟩
    · simp only [readBitsS]
      rw [if_neg hcond, halign]
    · simp only [readBitsS]
      rw [if_neg hcond]
      show (readBitsLoop s.data n s.pos s.bitPos 0).2.1 = s.pos + n / 8
      rw [halign, readBitsLoop_cursor s.data n s.pos 7 0 (by norm_num)]
      have e : n + 7 - 7 = n := by omega
      rw [e]
    · simp only [readBitsS]
      rw [if_neg hcond]
    · simp only [readBitsS]
      rw [if_neg hcond, if_neg hcond, hloop]

/-- Concrete instance of the C8 amended theorem: a one-byte window over a
two-byte buffer, byte-aligned, `read_bits(4)`; the buffer truncated at
the window end gives the same value. -/
theorem c8_amended_witness :
    (mkStream [202, 99] 0 1).pos + (4 + 7) / 8 ≤ (mkStream [202, 99] 0 1).dend ∧
    (readBitsS 4 (mkStream [202, 99] 0 1)).1 =
      some (readBitsLoop [202, 99] 4 0 7 0).1 ∧
    readBitsS 4 { mkStream [202, 99] 0 1 with data := [202] } =
      ((readBitsS 4 (mkStream [202, 99] 0 1)).1,
       { (readBitsS 4 (mkStream [202, 99] 0 1)).2 with data := [202] }) :=
  ⟨by decide,
   ((c8_amended (mkStream [202, 99] 0 1) 4 [202] rfl (by decide)).2 (by decide)).1,
   (((c8_amended (mkStream [202, 99] 0 1) 4 [202] rfl (by decide)).2 (by decide)).2.2).2⟩

/-! ### C6: schedule density (amended part) -/

/-- Counting a predicate of period `L` over any window of length `L`
does not depend on the window start. -/
theorem countP_range'_shift (p : Nat → Bool) (L : Nat)
    (hper : ∀ n, p (n + L) = p n) (a : Nat) :
    (List.range' a L).countP p = (List.range L).countP p := by
  induction a with
  | zero => rw [List.range_eq_range']
  | succ b ih =>
    rw [← ih]
    cases L with
    | zero => rfl
    | succ m =>
      rw [List.range'_concat, List.countP_append, List.range'_succ, List.countP_cons]
      rw [List.countP_cons, List.countP_nil]
      have e : b + 1 + 1 * m = b + (m + 1) := by ring
      rw [e, hper b]
      omega

/-- A period-`T` predicate also has period `k · T`. -/
theorem p_period_mul (p : Nat → Bool) (T : Nat) (hper : ∀ n, p (n + T) = p n) :
    ∀ (k n : Nat), p (n + k * T) = p n := by
  intro k
  induction k with
  | zero => intro n; rw [Nat.zero_mul, Nat.add_zero]
  | succ j ih =>
    intro n
    have e : n + (j + 1) * T = n + T + j * T := by ring
    rw [e, ih, hper]

/-- Counting a period-`T` predicate over `[0, m·T)` gives `m` times the
count over one period. -/
theorem countP_range_mul (p : Nat → Bool) (T : Nat)
    (hper : ∀ n, p (n + T) = p n) :
    ∀ m, (List.range (m * T)).countP p = m * (List.range T).countP p := by
  intro m
  induction m with
  | zero => rw [Nat.zero_mul, Nat.zero_mul]; rfl
  | succ j ih =>
    have e : (j + 1) * T = T + j * T := by ring
    have happ : List.range' 0 (j * T) ++ List.range' (0 + 1 * (j * T)) T =
        List.range' 0 (T + j * T) := List.range'_append 0 (j * T) T 1
    rw [e, List.range_eq_range', ← happ, List.countP_append, ← List.range_eq_range', ih]
    have e2 : 0 + 1 * (j * T) = j * T := by ring
    rw [e2, countP_range'_shift p T hper (j * T)]
    ring

/-- `(range d).countP (· < pn) = min pn d`. -/
theorem countP_range_lt (pn : Nat) : ∀ d,
    (List.range d).countP (fun t => decide (t < pn)) = min pn d := by
  intro d
  induction d with
  | zero => simp
  | succ j ih =>
    rw [List.range_succ, List.countP_append, ih]
    have hs : List.countP (fun t => decide (t < pn)) [j] =
        if j < pn then 1 else 0 := by
      simp [List.countP_cons]
    rw [hs]
    by_cases hj : j < pn
    · rw [if_pos hj]; omega
    · rw [if_neg hj]; omega

/-- Shift invariance restated over `List.range`: counting a
period-`L` predicate along `[a, a+L)` equals its count along `[0, L)`. -/
theorem countP_range_shift (p : Nat → Bool) (L : Nat)
    (hper : ∀ n, p (n + L) = p n) (a : Nat) :
    (List.range L).countP (fun k => p (a + k)) = (List.range L).countP p := by
  have h1 : List.range' a L = (List.range L).map (a + ·) :=
    List.range'_eq_map_range a L
  have h2 := countP_range'_shift p L hper a
  rw [h1, List.countP_map] at h2
  exact h2

/-- Bridge from the `Int` modular arithmetic of `should_have_frame` to
`Nat` arithmetic, valid on nonnegative frame indexes. -/
theorem shouldHaveFrame_natCast (I pn pd : Nat) (hpn : 1 ≤ pn) (n : Nat) :
    shouldHaveFrame (schedHeader I pn pd) (n : Int) =
      decide ((n % I + pn - 1) % pd < pn) := by
  simp only [shouldHaveFrame, schedHeader]
  rw [decide_eq_decide]
  have hb : 1 ≤ n % I + pn := by omega
  have e : ((n % I + pn - 1 : Nat) : Int) = ((n % I : Nat) : Int) + (pn : Int) - 1 := by
    rw [Nat.cast_sub hb]
    push_cast
    ring
  rw [← Int.natCast_mod n I, ← e, ← Int.natCast_mod, Nat.cast_lt]

/-- C6 (amended): for `I_interval ≥ 1`, `P_num/P_denom` in lowest terms
with `1 ≤ P_num ≤ P_denom` AND `P_denom ∣ I_interval`, every window of
length `I_interval · P_denom` contains exactly `I_interval · P_num`
indexes `n` with `should_have_frame(n)`.  (Without the divisibility
condition the density claim fails, see the C6 counterexample.) -/
theorem c6_amended (I pn pd a : Nat) (hI : 1 ≤ I) (hpn : 1 ≤ pn)
    (hle : pn ≤ pd) (hcop : Nat.gcd pn pd = 1) (hdvd : pd ∣ I) :
    (List.range (I * pd)).countP
      (fun k => shouldHaveFrame (schedHeader I pn pd) ((a + k : Nat) : Int)) = I * pn := by
  obtain ⟨m0, hm0⟩ := hdvd
  have hpd : 1 ≤ pd := le_trans hpn hle
  have h1 : (List.range (I * pd)).countP
      (fun k => shouldHaveFrame (schedHeader I pn pd) ((a + k : Nat) : Int)) =
      (List.range (I * pd)).countP
        (fun k => decide (((a + k) % I + pn - 1) % pd < pn)) :=
    List.countP_congr (fun k _ => by rw [shouldHaveFrame_natCast I pn pd hpn (a + k)])
  rw [h1]
  have hperI : ∀ n, (fun n => decide ((n % I + pn - 1) % pd < pn)) (n + I) =
      (fun n => decide ((n % I + pn - 1) % pd < pn)) n := by
    intro n
    show decide (((n + I) % I + pn - 1) % pd < pn) = decide ((n % I + pn - 1) % pd < pn)
    rw [Nat.add_mod_right]
  have hperL : ∀ n, (fun n => decide ((n % I + pn - 1) % pd < pn)) (n + I * pd) =
      (fun n => decide ((n % I + pn - 1) % pd < pn)) n := by
    intro n
    have h := p_period_mul (fun n => decide ((n % I + pn - 1) % pd < pn)) I hperI pd n
    rw [Nat.mul_comm I pd]
    exact h
  rw [countP_range_shift (fun n => decide ((n % I + pn - 1) % pd < pn)) (I * pd) hperL a]
  rw [Nat.mul_comm I pd,
    countP_range_mul (fun n => decide ((n % I + pn - 1) % pd < pn)) I hperI pd]
  have h3 : (List.range I).countP (fun n => decide ((n % I + pn - 1) % pd < pn)) =
      (List.range I).countP (fun r => decide ((r + (pn - 1)) % pd < pn)) := by
    refine List.countP_congr ?_
    intro r hr
    have hrI : r < I := List.mem_range.mp hr
    have e1 : r % I = r := Nat.mod_eq_of_lt hrI
    have e2 : r + pn - 1 = r + (pn - 1) := by omega
    show decide ((r % I + pn - 1) % pd < pn) = true ↔
      decide ((r + (pn - 1)) % pd < pn) = true
    rw [e1, e2]
  rw [h3]
  have hqper : ∀ n, (fun r => decide ((r + (pn - 1)) % pd < pn)) (n + pd) =
      (fun r => decide ((r + (pn - 1)) % pd < pn)) n := by
    intro n
    show decide ((n + pd + (pn - 1)) % pd < pn) = decide ((n + (pn - 1)) % pd < pn)
    have e : n + pd + (pn - 1) = n + (pn - 1) + pd := by omega
    rw [e, Nat.add_mod_right]
  have hI' : I = m0 * pd := by rw [hm0, Nat.mul_comm]
  rw [hI', countP_range_mul (fun r => decide ((r + (pn - 1)) % pd < pn)) pd hqper m0]
  have hq0per : ∀ n, (fun t => decide (t % pd < pn)) (n + pd) =
      (fun t => decide (t % pd < pn)) n := by
    intro n
    show decide ((n + pd) % pd < pn) = decide (n % pd < pn)
    rw [Nat.add_mod_right]
  have h4 : (List.range pd).countP (fun r => decide ((r + (pn - 1)) % pd < pn)) =
      (List.range pd).countP (fun r => decide (((pn - 1) + r) % pd < pn)) := by
    refine List.countP_congr ?_
    intro r _
    show decide ((r + (pn - 1)) % pd < pn) = true ↔
      decide (((pn - 1) + r) % pd < pn) = true
    rw [Nat.add_comm r (pn - 1)]
  rw [h4]
  have h5 := countP_range_shift (fun t => decide (t % pd < pn)) pd hq0per (pn - 1)
  rw [h5]
  have h6 : (List.range pd).countP (fun t => decide (t % pd < pn)) =
      (List.range pd).countP (fun t => decide (t < pn)) := by
    refine List.countP_congr ?_
    intro t ht
    have htpd : t < pd := List.mem_range.mp ht
    show decide (t % pd < pn) = true ↔ decide (t < pn) = true
    rw [Nat.mod_eq_of_lt htpd]
  rw [h6, countP_range_lt pn pd, Nat.min_eq_left hle]
  ring

/-- Concrete instance of the C6 amended theorem: `I = 2`, `P = 1/2`
(lowest terms, `2 ∣ 2`), window `[5, 9)` of length `2·2` contains
exactly `2·1` scheduled indexes. -/
theorem c6_amended_witness :
    (List.range (2 * 2)).countP
      (fun k => shouldHaveFrame (schedHeader 2 1 2) ((5 + k : Nat) : Int)) = 2 * 1 :=
  c6_amended 2 1 2 5 (by decide) (by decide) (by decide) (by decide) (by decide)

/-! ### C4: prefix stability (amended part) -/

/-- Widen (or change) only the window end of a stream state. -/
def setEndS (s : BStream) (e : Nat) : BStream := { s with dend := e }

/-- The EOF flag is sticky across `peek_char`. -/
theorem peekCharS_sticky (s : BStream) (h : s.eof = true) :
    (peekCharS s).2.eof = true := by
  rw [peekCharS]
  by_cases hp : s.pos < s.dend
  · rw [if_pos hp]; exact h
  · rw [if_neg hp]

/-- The EOF flag is sticky across `read_byte`. -/
theorem readByteS_sticky (s : BStream) (h : s.eof = true) :
    (readByteS s).2.eof = true := by
  rw [readByteS]
  by_cases hp : s.pos < s.dend
  · rw [if_pos hp]; exact h
  · rw [if_neg hp]

/-- The EOF flag is sticky across `read`. -/
theorem readSliceS_sticky (n : Nat) (s : BStream) (h : s.eof = true) :
    (readSliceS n s).2.eof = true := by
  simp only [readSliceS]
  rw [h]
  rfl

/-- The EOF flag is sticky across `read_bits`. -/
theorem readBitsS_sticky (n : Nat) (s : BStream) (h : s.eof = true) :
    (readBitsS n s).2.eof = true := by
  simp only [readBitsS]
  by_cases hc : s.pos + (n + 8 - 1) / 8 > s.dend
  · rw [if_pos hc]
  · rw [if_neg hc]; exact h

/-- The EOF flag is sticky across `byte_align`. -/
theorem byteAlignS_sticky (s : BStream) (h : s.eof = true) :
    (byteAlignS s).eof = true := by
  rw [byteAlignS]
  by_cases hb : s.bitPos ≠ 7
  · rw [if_pos hb]; exact h
  · rw [if_neg hb]; exact h

/-- The EOF flag is sticky across a whole `M` run. -/
theorem runM_eof_sticky {α : Type} (p : M α) : ∀ s : BStream,
    s.eof = true → (runM p s).2.eof = true := by
  induction p with
  | pure a => intro s h; exact h
  | peekChar k ih => intro s h; exact ih _ _ (peekCharS_sticky s h)
  | readByte k ih => intro s h; exact ih _ _ (readByteS_sticky s h)
  | readBits n k ih => intro s h; exact ih _ _ (readBitsS_sticky n s h)
  | readSlice n k ih => intro s h; exact ih _ _ (readSliceS_sticky n s h)
  | byteAlign k ih => intro s h; exact ih _ (byteAlignS_sticky s h)
  | getEof k ih => intro s h; exact ih _ _ h

/-- If a run ends with the EOF flag clear, it started with it clear. -/
theorem runM_eof_false {α : Type} (p : M α) (s : BStream)
    (hf : (runM p s).2.eof = false) : s.eof = false := by
  cases hs : s.eof
  · rfl
  · have ht := runM_eof_sticky p s hs
    rw [ht] at hf
    exact Bool.noConfusion hf

/-- No `M` primitive moves the window end. -/
theorem runM_dend {α : Type} (p : M α) : ∀ s : BStream,
    (runM p s).2.dend = s.dend := by
  induction p with
  | pure a => intro s; rfl
  | peekChar k ih =>
    intro s
    simp only [runM]
    rw [ih]
    rw [peekCharS]
    by_cases hp : s.pos < s.dend
    · rw [if_pos hp]
    · rw [if_neg hp]
  | readByte k ih =>
    intro s
    simp only [runM]
    rw [ih]
    rw [readByteS]
    by_cases hp : s.pos < s.dend
    · rw [if_pos hp]
    · rw [if_neg hp]
  | readBits n k ih =>
    intro s
    simp only [runM]
    rw [ih]
    simp only [readBitsS]
    by_cases hc : s.pos + (n + 8 - 1) / 8 > s.dend
    · rw [if_pos hc]
    · rw [if_neg hc]
  | readSlice n k ih =>
    intro s
    simp only [runM]
    rw [ih]
    rfl
  | byteAlign k ih =>
    intro s
    simp only [runM]
    rw [ih]
    rw [byteAlignS]
    by_cases hb : s.bitPos ≠ 7
    · rw [if_pos hb]
    · rw [if_neg hb]
  | getEof k ih =>
    intro s
    simp only [runM]
    exact ih _ _

/-- End monotonicity of the interpreter: a run that finishes with the EOF
flag clear behaves identically when the window end is moved further out —
same result, same final cursor — because no primitive then consults the
bytes between the old and the new end. -/
theorem runM_endMono {α : Type} (p : M α) : ∀ (s : BStream) (e' : Nat),
    s.dend ≤ e' → (runM p s).2.eof = false →
    runM p (setEndS s e') = ((runM p s).1, setEndS (runM p s).2 e') := by
  induction p with
  | pure a => intro s e' _ _; rfl
  | peekChar k ih =>
    intro s e' hd hf
    simp only [runM] at hf ⊢
    have hint : (peekCharS s).2.eof = false := runM_eof_false _ _ hf
    have hpos : s.pos < s.dend := by
      by_contra hp
      rw [peekCharS, if_neg hp] at hint
      exact Bool.noConfusion hint
    have hS : peekCharS s = (some (s.data.getD s.pos 0), s) := by
      rw [peekCharS, if_pos hpos]
    have hL : peekCharS (setEndS s e') =
        (some (s.data.getD s.pos 0), setEndS s e') := by
      rw [peekCharS,
        if_pos (show (setEndS s e').pos < (setEndS s e').dend from lt_of_lt_of_le hpos hd)]
      rfl
    rw [hS] at hf
    rw [hL, hS]
    exact ih _ s e' hd hf
  | readByte k ih =>
    intro s e' hd hf
    simp only [runM] at hf ⊢
    have hint : (readByteS s).2.eof = false := runM_eof_false _ _ hf
    have hpos : s.pos < s.dend := by
      by_contra hp
      rw [readByteS, if_neg hp] at hint
      exact Bool.noConfusion hint
    have hS : readByteS s = (some (s.data.getD s.pos 0), { s with pos := s.pos + 1 }) := by
      rw [readByteS, if_pos hpos]
    have hL : readByteS (setEndS s e') =
        (some (s.data.getD s.pos 0), setEndS { s with pos := s.pos + 1 } e') := by
      rw [readByteS,
        if_pos (show (setEndS s e').pos < (setEndS s e').dend from lt_of_lt_of_le hpos hd)]
      rfl
    rw [hS] at hf
    rw [hL, hS]
    exact ih _ _ e' hd hf
  | readBits n k ih =>
    intro s e' hd hf
    simp only [runM] at hf ⊢
    have hint : (readBitsS n s).2.eof = false := runM_eof_false _ _ hf
    have hcond : ¬ s.pos + (n + 8 - 1) / 8 > s.dend := by
      by_contra hc
      simp only [readBitsS] at hint
      rw [if_pos hc] at hint
      exact Bool.noConfusion hint
    have hS : readBitsS n s = (some (readBitsLoop s.data n s.pos s.bitPos 0).1,
        { s with pos := (readBitsLoop s.data n s.pos s.bitPos 0).2.1,
                 bitPos := (readBitsLoop s.data n s.pos s.bitPos 0).2.2 }) := by
      simp only [readBitsS]
      rw [if_neg hcond]
    have hcondL : ¬ s.pos + (n + 8 - 1) / 8 > e' := by omega
    have hL : readBitsS n (setEndS s e') =
        (some (readBitsLoop s.data n s.pos s.bitPos 0).1,
         setEndS { s with pos := (readBitsLoop s.data n s.pos s.bitPos 0).2.1,
                          bitPos := (readBitsLoop s.data n s.pos s.bitPos 0).2.2 } e') := by
      simp only [readBitsS, setEndS]
      rw [if_neg hcondL]
    rw [hS] at hf
    rw [hL, hS]
    exact ih _ _ e' hd hf
  | readSlice n k ih =>
    intro s e' hd hf
    simp only [runM] at hf ⊢
    have hint : (readSliceS n s).2.eof = false := runM_eof_false _ _ hf
    have hsetEof : ¬ n > s.dend - s.pos := by
      by_contra hc
      simp only [readSliceS] at hint
      rw [decide_eq_true hc] at hint
      simp at hint
    have hS : readSliceS n s =
        ((s.data.drop s.pos).take n, { s with pos := s.pos + n, eof := s.eof }) := by
      simp only [readSliceS]
      rw [if_neg hsetEof, decide_eq_false hsetEof, Bool.or_false]
    have hsetEofL : ¬ n > e' - s.pos := by omega
    have hL : readSliceS n (setEndS s e') =
        ((s.data.drop s.pos).take n, setEndS { s with pos := s.pos + n, eof := s.eof } e') := by
      simp only [readSliceS, setEndS]
      rw [if_neg hsetEofL, decide_eq_false hsetEofL, Bool.or_false]
    rw [hS] at hf
    rw [hL, hS]
    exact ih _ _ e' hd hf
  | byteAlign k ih =>
    intro s e' hd hf
    simp only [runM] at hf ⊢
    have hba : byteAlignS (setEndS s e') = setEndS (byteAlignS s) e' := by
      rw [byteAlignS, byteAlignS]
      by_cases hb : s.bitPos ≠ 7
      · rw [if_pos (show (setEndS s e').bitPos ≠ 7 from hb), if_pos hb]
        rfl
      · rw [if_neg (show ¬ (setEndS s e').bitPos ≠ 7 from hb), if_neg hb]
    have hdd : (byteAlignS s).dend = s.dend := by
      rw [byteAlignS]
      by_cases hb : s.bitPos ≠ 7
      · rw [if_pos hb]
      · rw [if_neg hb]
    rw [hba]
    exact ih _ e' (by rw [hdd]; exact hd) hf
  | getEof k ih =>
    intro s e' hd hf
    simp only [runM] at hf ⊢
    have he : (setEndS s e').eof = s.eof := rfl
    rw [he]
    exact ih _ s e' hd hf

/-- Widen only the window end inside a decode-loop state. -/
def setEndD (st : DState) (e : Nat) : DState := { st with stream := setEndS st.stream e }

/-- One decode step appends at most one committed main row. -/
theorem decodeStep_rows (h : LogHeader) (fc : Nat) (raw : Bool) (c : Nat) (st : DState) :
    (decodeStep h fc raw c st).mainFrames = st.mainFrames ∨
    ∃ row, (decodeStep h fc raw c st).mainFrames = st.mainFrames ++ [row] := by
  simp only [decodeStep]
  repeat' split
  all_goals first
    | (left; rfl)
    | (right; exact ⟨_, rfl⟩)

/-- The decode loop stops immediately on a sticky EOF. -/
theorem decodeLoop_eof (h : LogHeader) (fc : Nat) (raw : Bool) :
    ∀ (fuel : Nat) (st : DState), st.stream.eof = true →
    decodeLoop h fc raw fuel st = st := by
  intro fuel st he
  cases fuel with
  | zero => rfl
  | succ m =>
    simp only [decodeLoop]
    rw [if_pos he]

/-- The decode loop only appends main rows. -/
theorem decodeLoop_rows (h : LogHeader) (fc : Nat) (raw : Bool) :
    ∀ (fuel : Nat) (st : DState),
    ∃ e, (decodeLoop h fc raw fuel st).mainFrames = st.mainFrames ++ e := by
  intro fuel
  induction fuel with
  | zero => intro st; exact ⟨[], (List.append_nil _).symm⟩
  | succ m ih =>
    intro st
    simp only [decodeLoop]
    by_cases he : st.stream.eof = true
    · rw [if_pos he]; exact ⟨[], (List.append_nil _).symm⟩
    · rw [if_neg he]
      cases hp : (peekCharS st.stream).1 with
      | none =>
        simp only [hp]
        exact ⟨[], (List.append_nil _).symm⟩
      | some c =>
        simp only [hp]
        obtain ⟨e2, he2⟩ := ih (decodeStep h fc raw c { st with stream := (peekCharS st.stream).2 })
        rcases decodeStep_rows h fc raw c { st with stream := (peekCharS st.stream).2 } with h0 | ⟨row, h1⟩
        · refine ⟨e2, ?_⟩
          rw [he2, h0]
        · refine ⟨[row] ++ e2, ?_⟩
          rw [he2, h1, List.append_assoc]

/-- The I/P arm of the decode loop body, shared by both main-frame tags. -/
def mainStepBranch (fc : Nat) (prog : M (Bool × Parser)) (st : DState) : DState :=
  let s1 := (readByteS st.stream).2
  let r := runM prog s1
  let st := { st with stream := r.2, parser := r.1.2 }
  if r.1.1 ∧ st.parser.hist1.isSome then
    { st with mainFrames := st.mainFrames ++ [commitRow st.parser fc],
              validCount := st.validCount + 1 }
  else { st with corruptCount := st.corruptCount + 1 }

/-- The E arm of the decode loop body. -/
def eventStepBranch (st : DState) : DState :=
  let s1 := (readByteS st.stream).2
  let r := runM (parseEventFrameM st.parser) s1
  let ev := r.1.1
  let s2 := if r.1.2.1 then { r.2 with dend := r.2.pos } else r.2
  let st := { st with stream := s2, parser := r.1.2.2 }
  if ev.eventType ≥ 0 then
    { st with events := st.events ++ [{ etype := ev.eventType, syncBeepTime := ev.syncBeepTime,
                                        logIteration := ev.logIteration,
                                        currentTime := ev.currentTime }] }
  else st

/-- The G arm of the decode loop body. -/
def gpsStepBranch (h : LogHeader) (raw : Bool) (st : DState) : DState :=
  let s1 := (readByteS st.stream).2
  let r := runM (parseGpsFrameM h raw st.parser) s1
  let st := { st with stream := r.2, parser := r.1 }
  match h.getFrameDef 71 with
  | some gdef => { st with gpsFrames := st.gpsFrames ++ [st.parser.lastGps.take gdef.fieldCount] }
  | none => st

/-- The H arm of the decode loop body. -/
def homeStepBranch (h : LogHeader) (raw : Bool) (st : DState) : DState :=
  let s1 := (readByteS st.stream).2
  let r := runM (parseGpsHomeFrameM h raw st.parser) s1
  { st with stream := r.2, parser := r.1 }

/-- The S arm of the decode loop body. -/
def slowStepBranch (h : LogHeader) (raw : Bool) (st : DState) : DState :=
  let s1 := (readByteS st.stream).2
  let r := runM (parseSlowFrameM h raw st.parser) s1
  let st := { st with stream := r.2, parser := r.1 }
  match h.getFrameDef 83 with
  | some sdef => { st with slowFrames := st.slowFrames ++ [st.parser.lastSlow.take sdef.fieldCount] }
  | none => st

/-- The unknown-tag arm of the decode loop body. -/
def unknownStepBranch (st : DState) : DState :=
  { st with stream := (readByteS st.stream).2, parser := invalidateStream st.parser }

/-- When the peeked byte exists (`pos < end`), the decode step dispatches
to the per-tag arms; the `pos < end` conjunct of the H guard is then
redundant. -/
theorem decodeStep_eq_branch (h : LogHeader) (fc : Nat) (raw : Bool) (c : Nat) (st : DState)
    (hpos : st.stream.pos < st.stream.dend) :
    decodeStep h fc raw c st =
      if c = 73 then mainStepBranch fc (parseIntraframeM h raw st.parser) st
      else if c = 80 then mainStepBranch fc (parseInterframeM h raw st.parser) st
      else if c = 69 then eventStepBranch st
      else if c = 71 then gpsStepBranch h raw st
      else if c = 72 then homeStepBranch h raw st
      else if c = 83 then slowStepBranch h raw st
      else unknownStepBranch st := by
  rw [decodeStep]
  by_cases h73 : c = 73
  · rw [if_pos h73, if_pos h73]; rfl
  rw [if_neg h73, if_neg h73]
  by_cases h80 : c = 80
  · rw [if_pos h80, if_pos h80]; rfl
  rw [if_neg h80, if_neg h80]
  by_cases h69 : c = 69
  · rw [if_pos h69, if_pos h69]; rfl
  rw [if_neg h69, if_neg h69]
  by_cases h71 : c = 71
  · rw [if_pos h71, if_pos h71]; rfl
  rw [if_neg h71, if_neg h71]
  by_cases h72 : c = 72
  · rw [if_pos (show c = 72 ∧ st.stream.pos < st.stream.dend from ⟨h72, hpos⟩), if_pos h72]; rfl
  rw [if_neg (show ¬ (c = 72 ∧ st.stream.pos < st.stream.dend) from fun hx => h72 hx.1),
      if_neg h72]
  by_cases h83 : c = 83
  · rw [if_pos h83, if_pos h83]; rfl
  rw [if_neg h83, if_neg h83]
  rfl

/-- End monotonicity of the I/P arm: unless the parse run hit EOF, the
widened-window step is the widened image of the narrow step and the
window end is untouched. -/
theorem mainStepBranch_endMono (fc : Nat) (prog : M (Bool × Parser)) (st : DState) (e' : Nat)
    (hd : st.stream.dend ≤ e') (hpos : st.stream.pos < st.stream.dend) :
    (mainStepBranch fc prog (setEndD st e') = setEndD (mainStepBranch fc prog st) e' ∧
      (mainStepBranch fc prog st).stream.dend = st.stream.dend) ∨
    (mainStepBranch fc prog st).stream.eof = true := by
  have hrb : readByteS st.stream =
      (some (st.stream.data.getD st.stream.pos 0), { st.stream with pos := st.stream.pos + 1 }) := by
    rw [readByteS, if_pos hpos]
  have hrbL : readByteS (setEndS st.stream e') =
      (some (st.stream.data.getD st.stream.pos 0),
       setEndS { st.stream with pos := st.stream.pos + 1 } e') := by
    rw [readByteS,
      if_pos (show (setEndS st.stream e').pos < (setEndS st.stream e').dend from
        lt_of_lt_of_le hpos hd)]
    rfl
  have hS : mainStepBranch fc prog st =
      (if (runM prog { st.stream with pos := st.stream.pos + 1 }).1.1 ∧
          (runM prog { st.stream with pos := st.stream.pos + 1 }).1.2.hist1.isSome then
        { st with stream := (runM prog { st.stream with pos := st.stream.pos + 1 }).2,
                  parser := (runM prog { st.stream with pos := st.stream.pos + 1 }).1.2,
                  mainFrames := st.mainFrames ++
                    [commitRow (runM prog { st.stream with pos := st.stream.pos + 1 }).1.2 fc],
                  validCount := st.validCount + 1 }
      else
        { st with stream := (runM prog { st.stream with pos := st.stream.pos + 1 }).2,
                  parser := (runM prog { st.stream with pos := st.stream.pos + 1 }).1.2,
                  corruptCount := st.corruptCount + 1 }) := by
    rw [mainStepBranch, hrb]
  by_cases heof : (runM prog { st.stream with pos := st.stream.pos + 1 }).2.eof = true
  · right
    rw [hS]
    by_cases hcm : (runM prog { st.stream with pos := st.stream.pos + 1 }).1.1 ∧
        (runM prog { st.stream with pos := st.stream.pos + 1 }).1.2.hist1.isSome
    · rw [if_pos hcm]; exact heof
    · rw [if_neg hcm]; exact heof
  · left
    have heof' : (runM prog { st.stream with pos := st.stream.pos + 1 }).2.eof = false := by
      cases hx : (runM prog { st.stream with pos := st.stream.pos + 1 }).2.eof
      · rfl
      · exact absurd hx heof
    have hdm := runM_endMono prog { st.stream with pos := st.stream.pos + 1 } e' hd heof'
    have hL : mainStepBranch fc prog (setEndD st e') =
        (if (runM prog { st.stream with pos := st.stream.pos + 1 }).1.1 ∧
            (runM prog { st.stream with pos := st.stream.pos + 1 }).1.2.hist1.isSome then
          { st with stream := setEndS (runM prog { st.stream with pos := st.stream.pos + 1 }).2 e',
                    parser := (runM prog { st.stream with pos := st.stream.pos + 1 }).1.2,
                    mainFrames := st.mainFrames ++
                      [commitRow (runM prog { st.stream with pos := st.stream.pos + 1 }).1.2 fc],
                    validCount := st.validCount + 1 }
        else
          { st with stream := setEndS (runM prog { st.stream with pos := st.stream.pos + 1 }).2 e',
                    parser := (runM prog { st.stream with pos := st.stream.pos + 1 }).1.2,
                    corruptCount := st.corruptCount + 1 }) := by
      show mainStepBranch fc prog { st with stream := setEndS st.stream e' } = _
      rw [mainStepBranch, hrbL, hdm]
    refine ⟨?_, ?_⟩
    · rw [hS, hL]
      by_cases hcm : (runM prog { st.stream with pos := st.stream.pos + 1 }).1.1 ∧
          (runM prog { st.stream with pos := st.stream.pos + 1 }).1.2.hist1.isSome
      · rw [if_pos hcm, if_pos hcm]; rfl
      · rw [if_neg hcm, if_neg hcm]; rfl
    · rw [hS]
      by_cases hcm : (runM prog { st.stream with pos := st.stream.pos + 1 }).1.1 ∧
          (runM prog { st.stream with pos := st.stream.pos + 1 }).1.2.hist1.isSome
      · rw [if_pos hcm]
        exact runM_dend prog _
      · rw [if_neg hcm]
        exact runM_dend prog _

/-- `read_byte` on a position inside the window. -/
theorem readByteS_pos (s : BStream) (hpos : s.pos < s.dend) :
    readByteS s = (some (s.data.getD s.pos 0), { s with pos := s.pos + 1 }) := by
  rw [readByteS, if_pos hpos]

/-- `read_byte` on a position inside the window, after widening the end. -/
theorem readByteS_pos_setEnd (s : BStream) (e' : Nat) (hd : s.dend ≤ e')
    (hpos : s.pos < s.dend) :
    readByteS (setEndS s e') =
      (some (s.data.getD s.pos 0), setEndS { s with pos := s.pos + 1 } e') := by
  rw [readByteS,
    if_pos (show (setEndS s e').pos < (setEndS s e').dend from lt_of_lt_of_le hpos hd)]
  rfl

/-- End monotonicity of the H arm. -/
theorem homeStepBranch_endMono (h : LogHeader) (raw : Bool) (st : DState) (e' : Nat)
    (hd : st.stream.dend ≤ e') (hpos : st.stream.pos < st.stream.dend) :
    (homeStepBranch h raw (setEndD st e') = setEndD (homeStepBranch h raw st) e' ∧
      (homeStepBranch h raw st).stream.dend = st.stream.dend) ∨
    (homeStepBranch h raw st).stream.eof = true := by
  have hS : homeStepBranch h raw st =
      { st with stream := (runM (parseGpsHomeFrameM h raw st.parser)
                  { st.stream with pos := st.stream.pos + 1 }).2,
                parser := (runM (parseGpsHomeFrameM h raw st.parser)
                  { st.stream with pos := st.stream.pos + 1 }).1 } := by
    rw [homeStepBranch, readByteS_pos st.stream hpos]
  by_cases heof : (runM (parseGpsHomeFrameM h raw st.parser)
      { st.stream with pos := st.stream.pos + 1 }).2.eof = true
  · right
    rw [hS]
    exact heof
  · left
    have heof' : (runM (parseGpsHomeFrameM h raw st.parser)
        { st.stream with pos := st.stream.pos + 1 }).2.eof = false := by
      cases hx : (runM (parseGpsHomeFrameM h raw st.parser)
          { st.stream with pos := st.stream.pos + 1 }).2.eof
      · rfl
      · exact absurd hx heof
    have hdm := runM_endMono (parseGpsHomeFrameM h raw st.parser)
      { st.stream with pos := st.stream.pos + 1 } e' hd heof'
    have hL : homeStepBranch h raw (setEndD st e') =
        { st with stream := setEndS (runM (parseGpsHomeFrameM h raw st.parser)
                    { st.stream with pos := st.stream.pos + 1 }).2 e',
                  parser := (runM (parseGpsHomeFrameM h raw st.parser)
                    { st.stream with pos := st.stream.pos + 1 }).1 } := by
      show homeStepBranch h raw { st with stream := setEndS st.stream e' } = _
      rw [homeStepBranch, readByteS_pos_setEnd st.stream e' hd hpos, hdm]
    refine ⟨?_, ?_⟩
    · rw [hS, hL]; rfl
    · rw [hS]
      exact runM_dend _ _

/-- End monotonicity of the G arm. -/
theorem gpsStepBranch_endMono (h : LogHeader) (raw : Bool) (st : DState) (e' : Nat)
    (hd : st.stream.dend ≤ e') (hpos : st.stream.pos < st.stream.dend) :
    (gpsStepBranch h raw (setEndD st e') = setEndD (gpsStepBranch h raw st) e' ∧
      (gpsStepBranch h raw st).stream.dend = st.stream.dend) ∨
    (gpsStepBranch h raw st).stream.eof = true := by
  by_cases heof : (runM (parseGpsFrameM h raw st.parser)
      { st.stream with pos := st.stream.pos + 1 }).2.eof = true
  · right
    cases hg : h.getFrameDef 71 with
    | none =>
      have hS : gpsStepBranch h raw st =
          { st with stream := (runM (parseGpsFrameM h raw st.parser)
                      { st.stream with pos := st.stream.pos + 1 }).2,
                    parser := (runM (parseGpsFrameM h raw st.parser)
                      { st.stream with pos := st.stream.pos + 1 }).1 } := by
        rw [gpsStepBranch, readByteS_pos st.stream hpos, hg]
      rw [hS]; exact heof
    | some gdef =>
      have hS : gpsStepBranch h raw st =
          { st with stream := (runM (parseGpsFrameM h raw st.parser)
                      { st.stream with pos := st.stream.pos + 1 }).2,
                    parser := (runM (parseGpsFrameM h raw st.parser)
                      { st.stream with pos := st.stream.pos + 1 }).1,
                    gpsFrames := st.gpsFrames ++
                      [((runM (parseGpsFrameM h raw st.parser)
                          { st.stream with pos := st.stream.pos + 1 }).1).lastGps.take gdef.fieldCount] } := by
        rw [gpsStepBranch, readByteS_pos st.stream hpos, hg]
      rw [hS]; exact heof
  · left
    have heof' : (runM (parseGpsFrameM h raw st.parser)
        { st.stream with pos := st.stream.pos + 1 }).2.eof = false := by
      cases hx : (runM (parseGpsFrameM h raw st.parser)
          { st.stream with pos := st.stream.pos + 1 }).2.eof
      · rfl
      · exact absurd hx heof
    have hdm := runM_endMono (parseGpsFrameM h raw st.parser)
      { st.stream with pos := st.stream.pos + 1 } e' hd heof'
    cases hg : h.getFrameDef 71 with
    | none =>
      have hS : gpsStepBranch h raw st =
          { st with stream := (runM (parseGpsFrameM h raw st.parser)
                      { st.stream with pos := st.stream.pos + 1 }).2,
                    parser := (runM (parseGpsFrameM h raw st.parser)
                      { st.stream with pos := st.stream.pos + 1 }).1 } := by
        rw [gpsStepBranch, readByteS_pos st.stream hpos, hg]
      have hL : gpsStepBranch h raw (setEndD st e') =
          { st with stream := setEndS (runM (parseGpsFrameM h raw st.parser)
                      { st.stream with pos := st.stream.pos + 1 }).2 e',
                    parser := (runM (parseGpsFrameM h raw st.parser)
                      { st.stream with pos := st.stream.pos + 1 }).1 } := by
        show gpsStepBranch h raw { st with stream := setEndS st.stream e' } = _
        rw [gpsStepBranch, readByteS_pos_setEnd st.stream e' hd hpos, hdm, hg]
      refine ⟨?_, ?_⟩
      · rw [hS, hL]; rfl
      · rw [hS]; exact runM_dend _ _
    | some gdef =>
      have hS : gpsStepBranch h raw st =
          { st with stream := (runM (parseGpsFrameM h raw st.parser)
                      { st.stream with pos := st.stream.pos + 1 }).2,
                    parser := (runM (parseGpsFrameM h raw st.parser)
                      { st.stream with pos := st.stream.pos + 1 }).1,
                    gpsFrames := st.gpsFrames ++
                      [((runM (parseGpsFrameM h raw st.parser)
                          { st.stream with pos := st.stream.pos + 1 }).1).lastGps.take gdef.fieldCount] } := by
        rw [gpsStepBranch, readByteS_pos st.stream hpos, hg]
      have hL : gpsStepBranch h raw (setEndD st e') =
          { st with stream := setEndS (runM (parseGpsFrameM h raw st.parser)
                      { st.stream with pos := st.stream.pos + 1 }).2 e',
                    parser := (runM (parseGpsFrameM h raw st.parser)
                      { st.stream with pos := st.stream.pos + 1 }).1,
                    gpsFrames := st.gpsFrames ++
                      [((runM (parseGpsFrameM h raw st.parser)
                          { st.stream with pos := st.stream.pos + 1 }).1).lastGps.take gdef.fieldCount] } := by
        show gpsStepBranch h raw { st with stream := setEndS st.stream e' } = _
        rw [gpsStepBranch, readByteS_pos_setEnd st.stream e' hd hpos, hdm, hg]
      refine ⟨?_, ?_⟩
      · rw [hS, hL]; rfl
      · rw [hS]; exact runM_dend _ _

/-- End monotonicity of the S arm. -/
theorem slowStepBranch_endMono (h : LogHeader) (raw : Bool) (st : DState) (e' : Nat)
    (hd : st.stream.dend ≤ e') (hpos : st.stream.pos < st.stream.dend) :
    (slowStepBranch h raw (setEndD st e') = setEndD (slowStepBranch h raw st) e' ∧
      (slowStepBranch h raw st).stream.dend = st.stream.dend) ∨
    (slowStepBranch h raw st).stream.eof = true := by
  by_cases heof : (runM (parseSlowFrameM h raw st.parser)
      { st.stream with pos := st.stream.pos + 1 }).2.eof = true
  · right
    cases hg : h.getFrameDef 83 with
    | none =>
      have hS : slowStepBranch h raw st =
          { st with stream := (runM (parseSlowFrameM h raw st.parser)
                      { st.stream with pos := st.stream.pos + 1 }).2,
                    parser := (runM (parseSlowFrameM h raw st.parser)
                      { st.stream with pos := st.stream.pos + 1 }).1 } := by
        rw [slowStepBranch, readByteS_pos st.stream hpos, hg]
      rw [hS]; exact heof
    | some sdef =>
      have hS : slowStepBranch h raw st =
          { st with stream := (runM (parseSlowFrameM h raw st.parser)
                      { st.stream with pos := st.stream.pos + 1 }).2,
                    parser := (runM (parseSlowFrameM h raw st.parser)
                      { st.stream with pos := st.stream.pos + 1 }).1,
                    slowFrames := st.slowFrames ++
                      [((runM (parseSlowFrameM h raw st.parser)
                          { st.stream with pos := st.stream.pos + 1 }).1).lastSlow.take sdef.fieldCount] } := by
        rw [slowStepBranch, readByteS_pos st.stream hpos, hg]
      rw [hS]; exact heof
  · left
    have heof' : (runM (parseSlowFrameM h raw st.parser)
        { st.stream with pos := st.stream.pos + 1 }).2.eof = false := by
      cases hx : (runM (parseSlowFrameM h raw st.parser)
          { st.stream with pos := st.stream.pos + 1 }).2.eof
      · rfl
      · exact absurd hx heof
    have hdm := runM_endMono (parseSlowFrameM h raw st.parser)
      { st.stream with pos := st.stream.pos + 1 } e' hd heof'
    cases hg : h.getFrameDef 83 with
    | none =>
      have hS : slowStepBranch h raw st =
          { st with stream := (runM (parseSlowFrameM h raw st.parser)
                      { st.stream with pos := st.stream.pos + 1 }).2,
                    parser := (runM (parseSlowFrameM h raw st.parser)
                      { st.stream with pos := st.stream.pos + 1 }).1 } := by
        rw [slowStepBranch, readByteS_pos st.stream hpos, hg]
      have hL : slowStepBranch h raw (setEndD st e') =
          { st with stream := setEndS (runM (parseSlowFrameM h raw st.parser)
                      { st.stream with pos := st.stream.pos + 1 }).2 e',
                    parser := (runM (parseSlowFrameM h raw st.parser)
                      { st.stream with pos := st.stream.pos + 1 }).1 } := by
        show slowStepBranch h raw { st with stream := setEndS st.stream e' } = _
        rw [slowStepBranch, readByteS_pos_setEnd st.stream e' hd hpos, hdm, hg]
      refine ⟨?_, ?_⟩
      · rw [hS, hL]; rfl
      · rw [hS]; exact runM_dend _ _
    | some sdef =>
      have hS : slowStepBranch h raw st =
          { st with stream := (runM (parseSlowFrameM h raw st.parser)
                      { st.stream with pos := st.stream.pos + 1 }).2,
                    parser := (runM (parseSlowFrameM h raw st.parser)
                      { st.stream with pos := st.stream.pos + 1 }).1,
                    slowFrames := st.slowFrames ++
                      [((runM (parseSlowFrameM h raw st.parser)
                          { st.stream with pos := st.stream.pos + 1 }).1).lastSlow.take sdef.fieldCount] } := by
        rw [slowStepBranch, readByteS_pos st.stream hpos, hg]
      have hL : slowStepBranch h raw (setEndD st e') =
          { st with stream := setEndS (runM (parseSlowFrameM h raw st.parser)
                      { st.stream with pos := st.stream.pos + 1 }).2 e',
                    parser := (runM (parseSlowFrameM h raw st.parser)
                      { st.stream with pos := st.stream.pos + 1 }).1,
                    slowFrames := st.slowFrames ++
                      [((runM (parseSlowFrameM h raw st.parser)
                          { st.stream with pos := st.stream.pos + 1 }).1).lastSlow.take sdef.fieldCount] } := by
        show slowStepBranch h raw { st with stream := setEndS st.stream e' } = _
        rw [slowStepBranch, readByteS_pos_setEnd st.stream e' hd hpos, hdm, hg]
      refine ⟨?_, ?_⟩
      · rw [hS, hL]; rfl
      · rw [hS]; exact runM_dend _ _

/-- End monotonicity of the unknown-tag arm (it only consumes the byte). -/
theorem unknownStepBranch_endMono (st : DState) (e' : Nat)
    (hd : st.stream.dend ≤ e') (hpos : st.stream.pos < st.stream.dend) :
    unknownStepBranch (setEndD st e') = setEndD (unknownStepBranch st) e' ∧
    (unknownStepBranch st).stream.dend = st.stream.dend := by
  have hS : unknownStepBranch st =
      { st with stream := { st.stream with pos := st.stream.pos + 1 },
                parser := invalidateStream st.parser } := by
    rw [unknownStepBranch, readByteS_pos st.stream hpos]
  have hL : unknownStepBranch (setEndD st e') =
      { st with stream := setEndS { st.stream with pos := st.stream.pos + 1 } e',
                parser := invalidateStream st.parser } := by
    show unknownStepBranch { st with stream := setEndS st.stream e' } = _
    rw [unknownStepBranch, readByteS_pos_setEnd st.stream e' hd hpos]
  refine ⟨?_, ?_⟩
  · rw [hS, hL]; rfl
  · rw [hS]

/-- End monotonicity of the E arm: either the two steps are the widened
image of one another, or a well-formed LOG_END shrank the window to the
cursor — making the two resulting states literally equal — or the event
parse hit EOF. -/
theorem eventStepBranch_endMono (st : DState) (e' : Nat)
    (hd : st.stream.dend ≤ e') (hpos : st.stream.pos < st.stream.dend) :
    (eventStepBranch (setEndD st e') = setEndD (eventStepBranch st) e' ∧
      (eventStepBranch st).stream.dend = st.stream.dend) ∨
    eventStepBranch (setEndD st e') = eventStepBranch st ∨
    (eventStepBranch st).stream.eof = true := by
  have hS : eventStepBranch st =
      (if (runM (parseEventFrameM st.parser) { st.stream with pos := st.stream.pos + 1 }).1.1.eventType ≥ 0 then
        { st with stream := (if (runM (parseEventFrameM st.parser) { st.stream with pos := st.stream.pos + 1 }).1.2.1 then
                    { (runM (parseEventFrameM st.parser) { st.stream with pos := st.stream.pos + 1 }).2 with
                      dend := (runM (parseEventFrameM st.parser) { st.stream with pos := st.stream.pos + 1 }).2.pos }
                  else (runM (parseEventFrameM st.parser) { st.stream with pos := st.stream.pos + 1 }).2),
                  parser := (runM (parseEventFrameM st.parser) { st.stream with pos := st.stream.pos + 1 }).1.2.2,
                  events := st.events ++
                    [{ etype := (runM (parseEventFrameM st.parser) { st.stream with pos := st.stream.pos + 1 }).1.1.eventType,
                       syncBeepTime := (runM (parseEventFrameM st.parser) { st.stream with pos := st.stream.pos + 1 }).1.1.syncBeepTime,
                       logIteration := (runM (parseEventFrameM st.parser) { st.stream with pos := st.stream.pos + 1 }).1.1.logIteration,
                       currentTime := (runM (parseEventFrameM st.parser) { st.stream with pos := st.stream.pos + 1 }).1.1.currentTime }] }
      else
        { st with stream := (if (runM (parseEventFrameM st.parser) { st.stream with pos := st.stream.pos + 1 }).1.2.1 then
                    { (runM (parseEventFrameM st.parser) { st.stream with pos := st.stream.pos + 1 }).2 with
                      dend := (runM (parseEventFrameM st.parser) { st.stream with pos := st.stream.pos + 1 }).2.pos }
                  else (runM (parseEventFrameM st.parser) { st.stream with pos := st.stream.pos + 1 }).2),
                  parser := (runM (parseEventFrameM st.parser) { st.stream with pos := st.stream.pos + 1 }).1.2.2 }) := by
    rw [eventStepBranch, readByteS_pos st.stream hpos]
  by_cases heof : (runM (parseEventFrameM st.parser) { st.stream with pos := st.stream.pos + 1 }).2.eof = true
  · right; right
    rw [hS]
    by_cases hev : (runM (parseEventFrameM st.parser) { st.stream with pos := st.stream.pos + 1 }).1.1.eventType ≥ 0
    · rw [if_pos hev]
      by_cases hflag : (runM (parseEventFrameM st.parser) { st.stream with pos := st.stream.pos + 1 }).1.2.1 = true
      · rw [if_pos hflag]; exact heof
      · rw [if_neg hflag]; exact heof
    · rw [if_neg hev]
      by_cases hflag : (runM (parseEventFrameM st.parser) { st.stream with pos := st.stream.pos + 1 }).1.2.1 = true
      · rw [if_pos hflag]; exact heof
      · rw [if_neg hflag]; exact heof
  · have heof' : (runM (parseEventFrameM st.parser) { st.stream with pos := st.stream.pos + 1 }).2.eof = false := by
      cases hx : (runM (parseEventFrameM st.parser) { st.stream with pos := st.stream.pos + 1 }).2.eof
      · rfl
      · exact absurd hx heof
    have hdm := runM_endMono (parseEventFrameM st.parser)
      { st.stream with pos := st.stream.pos + 1 } e' hd heof'
    have hL : eventStepBranch (setEndD st e') =
        (if (runM (parseEventFrameM st.parser) { st.stream with pos := st.stream.pos + 1 }).1.1.eventType ≥ 0 then
          { st with stream := (if (runM (parseEventFrameM st.parser) { st.stream with pos := st.stream.pos + 1 }).1.2.1 then
                      { (runM (parseEventFrameM st.parser) { st.stream with pos := st.stream.pos + 1 }).2 with
                        dend := (runM (parseEventFrameM st.parser) { st.stream with pos := st.stream.pos + 1 }).2.pos }
                    else setEndS (runM (parseEventFrameM st.parser) { st.stream with pos := st.stream.pos + 1 }).2 e'),
                    parser := (runM (parseEventFrameM st.parser) { st.stream with pos := st.stream.pos + 1 }).1.2.2,
                    events := st.events ++
                      [{ etype := (runM (parseEventFrameM st.parser) { st.stream with pos := st.stream.pos + 1 }).1.1.eventType,
                         syncBeepTime := (runM (parseEventFrameM st.parser) { st.stream with pos := st.stream.pos + 1 }).1.1.syncBeepTime,
                         logIteration := (runM (parseEventFrameM st.parser) { st.stream with pos := st.stream.pos + 1 }).1.1.logIteration,
                         currentTime := (runM (parseEventFrameM st.parser) { st.stream with pos := st.stream.pos + 1 }).1.1.currentTime }] }
        else
          { st with stream := (if (runM (parseEventFrameM st.parser) { st.stream with pos := st.stream.pos + 1 }).1.2.1 then
                      { (runM (parseEventFrameM st.parser) { st.stream with pos := st.stream.pos + 1 }).2 with
                        dend := (runM (parseEventFrameM st.parser) { st.stream with pos := st.stream.pos + 1 }).2.pos }
                    else setEndS (runM (parseEventFrameM st.parser) { st.stream with pos := st.stream.pos + 1 }).2 e'),
                    parser := (runM (parseEventFrameM st.parser) { st.stream with pos := st.stream.pos + 1 }).1.2.2 }) := by
      show eventStepBranch { st with stream := setEndS st.stream e' } = _
      rw [eventStepBranch, readByteS_pos_setEnd st.stream e' hd hpos, hdm]
      rfl
    by_cases hflag : (runM (parseEventFrameM st.parser) { st.stream with pos := st.stream.pos + 1 }).1.2.1 = true
    · right; left
      rw [hS, hL]
      by_cases hev : (runM (parseEventFrameM st.parser) { st.stream with pos := st.stream.pos + 1 }).1.1.eventType ≥ 0
      · rw [if_pos hev, if_pos hev, if_pos hflag, if_pos hflag]
      · rw [if_neg hev, if_neg hev, if_pos hflag, if_pos hflag]
    · left
      refine ⟨?_, ?_⟩
      · rw [hS, hL]
        by_cases hev : (runM (parseEventFrameM st.parser) { st.stream with pos := st.stream.pos + 1 }).1.1.eventType ≥ 0
        · rw [if_pos hev, if_pos hev, if_neg hflag, if_neg hflag]; rfl
        · rw [if_neg hev, if_neg hev, if_neg hflag, if_neg hflag]; rfl
      · rw [hS]
        by_cases hev : (runM (parseEventFrameM st.parser) { st.stream with pos := st.stream.pos + 1 }).1.1.eventType ≥ 0
        · rw [if_pos hev, if_neg hflag]; exact runM_dend _ _
        · rw [if_neg hev, if_neg hflag]; exact runM_dend _ _

/-- End monotonicity of one decode step on a peek-successful state:
either the widened-window step is the widened image of the narrow step
(with the window end untouched), or the two steps coincide (LOG_END), or
the narrow step ended in EOF. -/
theorem decodeStep_endMono (h : LogHeader) (fc : Nat) (raw : Bool) (c : Nat)
    (st : DState) (e' : Nat) (hd : st.stream.dend ≤ e')
    (hpos : st.stream.pos < st.stream.dend) :
    (decodeStep h fc raw c (setEndD st e') = setEndD (decodeStep h fc raw c st) e' ∧
      (decodeStep h fc raw c st).stream.dend = st.stream.dend) ∨
    decodeStep h fc raw c (setEndD st e') = decodeStep h fc raw c st ∨
    (decodeStep h fc raw c st).stream.eof = true := by
  have hposL : (setEndD st e').stream.pos < (setEndD st e').stream.dend :=
    lt_of_lt_of_le hpos hd
  have hdS := decodeStep_eq_branch h fc raw c st hpos
  have hdL : decodeStep h fc raw c (setEndD st e') =
      (if c = 73 then mainStepBranch fc (parseIntraframeM h raw st.parser) (setEndD st e')
       else if c = 80 then mainStepBranch fc (parseInterframeM h raw st.parser) (setEndD st e')
       else if c = 69 then eventStepBranch (setEndD st e')
       else if c = 71 then gpsStepBranch h raw (setEndD st e')
       else if c = 72 then homeStepBranch h raw (setEndD st e')
       else if c = 83 then slowStepBranch h raw (setEndD st e')
       else unknownStepBranch (setEndD st e')) :=
    decodeStep_eq_branch h fc raw c (setEndD st e') hposL
  rw [hdS, hdL]
  by_cases h73 : c = 73
  · rw [if_pos h73, if_pos h73]
    rcases mainStepBranch_endMono fc (parseIntraframeM h raw st.parser) st e' hd hpos with hrel | heof
    · exact Or.inl hrel
    · exact Or.inr (Or.inr heof)
  rw [if_neg h73, if_neg h73]
  by_cases h80 : c = 80
  · rw [if_pos h80, if_pos h80]
    rcases mainStepBranch_endMono fc (parseInterframeM h raw st.parser) st e' hd hpos with hrel | heof
    · exact Or.inl hrel
    · exact Or.inr (Or.inr heof)
  rw [if_neg h80, if_neg h80]
  by_cases h69 : c = 69
  · rw [if_pos h69, if_pos h69]
    exact eventStepBranch_endMono st e' hd hpos
  rw [if_neg h69, if_neg h69]
  by_cases h71 : c = 71
  · rw [if_pos h71, if_pos h71]
    rcases gpsStepBranch_endMono h raw st e' hd hpos with hrel | heof
    · exact Or.inl hrel
    · exact Or.inr (Or.inr heof)
  rw [if_neg h71, if_neg h71]
  by_cases h72 : c = 72
  · rw [if_pos h72, if_pos h72]
    rcases homeStepBranch_endMono h raw st e' hd hpos with hrel | heof
    · exact Or.inl hrel
    · exact Or.inr (Or.inr heof)
  rw [if_neg h72, if_neg h72]
  by_cases h83 : c = 83
  · rw [if_pos h83, if_pos h83]
    rcases slowStepBranch_endMono h raw st e' hd hpos with hrel | heof
    · exact Or.inl hrel
    · exact Or.inr (Or.inr heof)
  rw [if_neg h83, if_neg h83]
  exact Or.inl (unknownStepBranch_endMono st e' hd hpos)

/-- The main simulation: all committed main rows of a decode over the
window `[start, e)`, except possibly the last one, are an initial segment
of the rows committed by the same decode over `[start, e')`, `e ≤ e'`. -/
theorem decodeLoop_take_extends (h : LogHeader) (fc : Nat) (raw : Bool) :
    ∀ (fuel : Nat) (st : DState) (e' : Nat), st.stream.dend ≤ e' →
    ∃ t, (decodeLoop h fc raw fuel st).mainFrames.take
        ((decodeLoop h fc raw fuel st).mainFrames.length - 1) ++ t =
      (decodeLoop h fc raw fuel (setEndD st e')).mainFrames := by
  intro fuel
  induction fuel with
  | zero =>
    intro st e' hd
    exact ⟨st.mainFrames.drop (st.mainFrames.length - 1), List.take_append_drop _ _⟩
  | succ m ih =>
    intro st e' hd
    by_cases he : st.stream.eof = true
    · rw [decodeLoop_eof h fc raw (m + 1) st he,
          decodeLoop_eof h fc raw (m + 1) (setEndD st e') he]
      exact ⟨st.mainFrames.drop (st.mainFrames.length - 1), List.take_append_drop _ _⟩
    · simp only [decodeLoop]
      rw [if_neg he, if_neg (show ¬ (setEndD st e').stream.eof = true from he)]
      cases hp : (peekCharS st.stream).1 with
      | none =>
        simp only [hp]
        cases hpL : (peekCharS (setEndD st e').stream).1 with
        | none =>
          simp only [hpL]
          exact ⟨st.mainFrames.drop (st.mainFrames.length - 1), List.take_append_drop _ _⟩
        | some cL =>
          simp only [hpL]
          obtain ⟨e2, he2⟩ := decodeLoop_rows h fc raw m
            (decodeStep h fc raw cL { setEndD st e' with stream := (peekCharS (setEndD st e').stream).2 })
          rcases decodeStep_rows h fc raw cL
              { setEndD st e' with stream := (peekCharS (setEndD st e').stream).2 } with h0 | ⟨row, h1⟩
          · refine ⟨st.mainFrames.drop (st.mainFrames.length - 1) ++ e2, ?_⟩
            rw [he2, h0, ← List.append_assoc]
            show st.mainFrames.take (st.mainFrames.length - 1) ++
              st.mainFrames.drop (st.mainFrames.length - 1) ++ e2 = st.mainFrames ++ e2
            rw [List.take_append_drop]
          · refine ⟨st.mainFrames.drop (st.mainFrames.length - 1) ++ ([row] ++ e2), ?_⟩
            rw [he2, h1, ← List.append_assoc]
            show st.mainFrames.take (st.mainFrames.length - 1) ++
              st.mainFrames.drop (st.mainFrames.length - 1) ++ ([row] ++ e2) =
              st.mainFrames ++ [row] ++ e2
            rw [List.take_append_drop, List.append_assoc]
      | some c =>
        have hpos : st.stream.pos < st.stream.dend := by
          by_contra hcon
          rw [peekCharS, if_neg hcon] at hp
          exact Option.noConfusion hp
        have hpeekS : peekCharS st.stream =
            (some (st.stream.data.getD st.stream.pos 0), st.stream) := by
          rw [peekCharS, if_pos hpos]
        have hcval : st.stream.data.getD st.stream.pos 0 = c := by
          rw [hpeekS] at hp
          exact Option.some.inj hp
        have hpeekL : peekCharS (setEndD st e').stream = (some c, (setEndD st e').stream) := by
          show peekCharS (setEndS st.stream e') = _
          rw [peekCharS,
            if_pos (show (setEndS st.stream e').pos < (setEndS st.stream e').dend from
              lt_of_lt_of_le hpos hd)]
          have hv : (setEndS st.stream e').data.getD (setEndS st.stream e').pos 0 = c := hcval
          rw [hv]
          rfl
        have hp2 : (peekCharS st.stream).2 = st.stream := by rw [hpeekS]
        have hpL1 : (peekCharS (setEndD st e').stream).1 = some c := by rw [hpeekL]
        have hpL2 : (peekCharS (setEndD st e').stream).2 = (setEndD st e').stream := by
          rw [hpeekL]
        simp only [hp, hp2, hpL1, hpL2]
        have hetaS : ({ st with stream := st.stream } : DState) = st := rfl
        have hetaL : ({ setEndD st e' with stream := (setEndD st e').stream } : DState) =
            setEndD st e' := rfl
        rw [hetaS, hetaL]
        rcases decodeStep_endMono h fc raw c st e' hd hpos with ⟨hrel, hdend⟩ | heq | heof2
        · rw [hrel]
          exact ih (decodeStep h fc raw c st) e' (by rw [hdend]; exact hd)
        · rw [heq]
          exact ⟨(decodeLoop h fc raw m (decodeStep h fc raw c st)).mainFrames.drop
              ((decodeLoop h fc raw m (decodeStep h fc raw c st)).mainFrames.length - 1),
            List.take_append_drop _ _⟩
        · rw [decodeLoop_eof h fc raw m (decodeStep h fc raw c st) heof2]
          obtain ⟨e2, he2⟩ := decodeLoop_rows h fc raw m (decodeStep h fc raw c (setEndD st e'))
          have hLbase : ∃ eL, (decodeStep h fc raw c (setEndD st e')).mainFrames =
              st.mainFrames ++ eL := by
            rcases decodeStep_rows h fc raw c (setEndD st e') with hL0 | ⟨rowL, hL1⟩
            · exact ⟨[], by rw [hL0]; exact (List.append_nil _).symm⟩
            · exact ⟨[rowL], hL1⟩
          obtain ⟨eL, heL⟩ := hLbase
          rcases decodeStep_rows h fc raw c st with h0 | ⟨row, h1⟩
          · refine ⟨st.mainFrames.drop (st.mainFrames.length - 1) ++ (eL ++ e2), ?_⟩
            rw [he2, heL, h0, ← List.append_assoc]
            show st.mainFrames.take (st.mainFrames.length - 1) ++
              st.mainFrames.drop (st.mainFrames.length - 1) ++ (eL ++ e2) =
              st.mainFrames ++ eL ++ e2
            rw [List.take_append_drop, List.append_assoc]
          · refine ⟨eL ++ e2, ?_⟩
            rw [he2, heL, h1]
            have hlen : (st.mainFrames ++ [row]).length - 1 = st.mainFrames.length := by
              rw [List.length_append]
              rfl
            rw [hlen, List.take_left, List.append_assoc]

/-- The HOME_COORD predictor rewrite step of `FlightLog.decode`, as a
function of the parsed header. -/
def homeRewritten (header : LogHeader) : LogHeader :=
  match header.getFrameDef 71 with
  | some _ => header.updateFrameDef 71
      (fun gd => { gd with predictor := rewriteHome gd.predictor gd.fieldCount })
  | none => header

/-- Characterization of a successful decode: the main-row table is the
row table of the decode loop started on the post-header stream under the
rewritten header. -/
theorem decodeWindow_ok (data : List Nat) (dend : Nat) (raw : Bool) (rows : List (List Int))
    (hok : (decodeWindow data dend raw).map DecodedLog.mainFrames = .ok rows) :
    ∃ idef,
      (homeRewritten (runM (parseHeadersM (data.length + 1)) (mkStream data 0 dend)).1).getFrameDef 73 =
        some idef ∧
      rows = (decodeLoop
        (homeRewritten (runM (parseHeadersM (data.length + 1)) (mkStream data 0 dend)).1)
        idef.fieldCount raw (data.length + 2)
        { stream := (runM (parseHeadersM (data.length + 1)) (mkStream data 0 dend)).2,
          parser := Parser.init, mainFrames := [], slowFrames := [], gpsFrames := [],
          events := [], validCount := 0, corruptCount := 0 }).mainFrames := by
  have hdw : decodeWindow data dend raw =
      (match (homeRewritten (runM (parseHeadersM (data.length + 1)) (mkStream data 0 dend)).1).getFrameDef 73 with
       | none => Except.error ()
       | some idef =>
         if idef.fieldCount = 0 then Except.error ()
         else
           Except.ok
             { header := homeRewritten (runM (parseHeadersM (data.length + 1)) (mkStream data 0 dend)).1,
               fieldNames := idef.fieldNames.take idef.fieldCount,
               mainFrames := (decodeLoop
                 (homeRewritten (runM (parseHeadersM (data.length + 1)) (mkStream data 0 dend)).1)
                 idef.fieldCount raw (data.length + 2)
                 { stream := (runM (parseHeadersM (data.length + 1)) (mkStream data 0 dend)).2,
                   parser := Parser.init, mainFrames := [], slowFrames := [], gpsFrames := [],
                   events := [], validCount := 0, corruptCount := 0 }).mainFrames,
               slowFrames := (decodeLoop
                 (homeRewritten (runM (parseHeadersM (data.length + 1)) (mkStream data 0 dend)).1)
                 idef.fieldCount raw (data.length + 2)
                 { stream := (runM (parseHeadersM (data.length + 1)) (mkStream data 0 dend)).2,
                   parser := Parser.init, mainFrames := [], slowFrames := [], gpsFrames := [],
                   events := [], validCount := 0, corruptCount := 0 }).slowFrames,
               gpsFrames := (decodeLoop
                 (homeRewritten (runM (parseHeadersM (data.length + 1)) (mkStream data 0 dend)).1)
                 idef.fieldCount raw (data.length + 2)
                 { stream := (runM (parseHeadersM (data.length + 1)) (mkStream data 0 dend)).2,
                   parser := Parser.init, mainFrames := [], slowFrames := [], gpsFrames := [],
                   events := [], validCount := 0, corruptCount := 0 }).gpsFrames,
               events := (decodeLoop
                 (homeRewritten (runM (parseHeadersM (data.length + 1)) (mkStream data 0 dend)).1)
                 idef.fieldCount raw (data.length + 2)
                 { stream := (runM (parseHeadersM (data.length + 1)) (mkStream data 0 dend)).2,
                   parser := Parser.init, mainFrames := [], slowFrames := [], gpsFrames := [],
                   events := [], validCount := 0, corruptCount := 0 }).events,
               validFrameCount := (decodeLoop
                 (homeRewritten (runM (parseHeadersM (data.length + 1)) (mkStream data 0 dend)).1)
                 idef.fieldCount raw (data.length + 2)
                 { stream := (runM (parseHeadersM (data.length + 1)) (mkStream data 0 dend)).2,
                   parser := Parser.init, mainFrames := [], slowFrames := [], gpsFrames := [],
                   events := [], validCount := 0, corruptCount := 0 }).validCount,
               corruptFrameCount := (decodeLoop
                 (homeRewritten (runM (parseHeadersM (data.length + 1)) (mkStream data 0 dend)).1)
                 idef.fieldCount raw (data.length + 2)
                 { stream := (runM (parseHeadersM (data.length + 1)) (mkStream data 0 dend)).2,
                   parser := Parser.init, mainFrames := [], slowFrames := [], gpsFrames := [],
                   events := [], validCount := 0, corruptCount := 0 }).corruptCount }) := rfl
  rw [hdw] at hok
  cases hdef : (homeRewritten (runM (parseHeadersM (data.length + 1)) (mkStream data 0 dend)).1).getFrameDef 73 with
  | none =>
    simp only [hdef] at hok
    simp only [Except.map] at hok
    exact Except.noConfusion hok
  | some idef =>
    simp only [hdef] at hok
    by_cases hfc : idef.fieldCount = 0
    · rw [if_pos hfc] at hok
      simp only [Except.map] at hok
      exact Except.noConfusion hok
    · rw [if_neg hfc] at hok
      simp only [Except.map] at hok
      exact ⟨idef, rfl, (Except.ok.inj hok).symm⟩

/-- C4 (amended): decoding the windows `[0, k)` and `[0, e')` of the same
buffer, `k ≤ e'`, when both succeed, every committed main row of the
short decode EXCEPT POSSIBLY THE LAST is an initial segment of the long
decode's row table: re-decoding a longer window can only append rows and
rewrite the one row that may have come from a frame truncated at `k`
(the unrestricted bit-identical-prefix claim fails on that last row, see
the C4 counterexample). -/
theorem c4_amended (data : List Nat) (k e' : Nat) (hk : k ≤ e')
    (rowsS rowsL : List (List Int))
    (hS : decodeMain data k = .ok rowsS)
    (hL : decodeMain data e' = .ok rowsL) :
    ∃ t, rowsS.take (rowsS.length - 1) ++ t = rowsL := by
  obtain ⟨idefS, hdefS, hrowsS⟩ := decodeWindow_ok data k false rowsS hS
  obtain ⟨idefL, hdefL, hrowsL⟩ := decodeWindow_ok data e' false rowsL hL
  by_cases heof : (runM (parseHeadersM (data.length + 1)) (mkStream data 0 k)).2.eof = true
  · have hstop : decodeLoop
        (homeRewritten (runM (parseHeadersM (data.length + 1)) (mkStream data 0 k)).1)
        idefS.fieldCount false (data.length + 2)
        { stream := (runM (parseHeadersM (data.length + 1)) (mkStream data 0 k)).2,
          parser := Parser.init, mainFrames := [], slowFrames := [], gpsFrames := [],
          events := [], validCount := 0, corruptCount := 0 } =
        { stream := (runM (parseHeadersM (data.length + 1)) (mkStream data 0 k)).2,
          parser := Parser.init, mainFrames := [], slowFrames := [], gpsFrames := [],
          events := [], validCount := 0, corruptCount := 0 } :=
      decodeLoop_eof _ _ _ _ _ heof
    rw [hstop] at hrowsS
    refine ⟨rowsL, ?_⟩
    rw [hrowsS]
    exact List.nil_append rowsL
  · have heof' : (runM (parseHeadersM (data.length + 1)) (mkStream data 0 k)).2.eof = false := by
      cases hx : (runM (parseHeadersM (data.length + 1)) (mkStream data 0 k)).2.eof
      · rfl
      · exact absurd hx heof
    have hdm := runM_endMono (parseHeadersM (data.length + 1)) (mkStream data 0 k) e' hk heof'
    have hmsE : mkStream data 0 e' = setEndS (mkStream data 0 k) e' := rfl
    rw [hmsE, hdm] at hrowsL hdefL
    dsimp only at hrowsL hdefL
    have hidef : idefL = idefS := by
      rw [hdefS] at hdefL
      exact (Option.some.inj hdefL).symm
    subst hidef
    have hst : ({ stream := setEndS (runM (parseHeadersM (data.length + 1)) (mkStream data 0 k)).2 e',
                  parser := Parser.init, mainFrames := [], slowFrames := [], gpsFrames := [],
                  events := [], validCount := 0, corruptCount := 0 } : DState) =
        setEndD { stream := (runM (parseHeadersM (data.length + 1)) (mkStream data 0 k)).2,
                  parser := Parser.init, mainFrames := [], slowFrames := [], gpsFrames := [],
                  events := [], validCount := 0, corruptCount := 0 } e' := rfl
    rw [hst] at hrowsL
    have hd0 : ({ stream := (runM (parseHeadersM (data.length + 1)) (mkStream data 0 k)).2,
                  parser := Parser.init, mainFrames := [], slowFrames := [], gpsFrames := [],
                  events := [], validCount := 0, corruptCount := 0 } : DState).stream.dend ≤ e' := by
      show (runM (parseHeadersM (data.length + 1)) (mkStream data 0 k)).2.dend ≤ e'
      rw [runM_dend]
      exact hk
    obtain ⟨t, ht⟩ := decodeLoop_take_extends
      (homeRewritten (runM (parseHeadersM (data.length + 1)) (mkStream data 0 k)).1)
      idefL.fieldCount false (data.length + 2)
      { stream := (runM (parseHeadersM (data.length + 1)) (mkStream data 0 k)).2,
        parser := Parser.init, mainFrames := [], slowFrames := [], gpsFrames := [],
        events := [], validCount := 0, corruptCount := 0 } e' hd0
    refine ⟨t, ?_⟩
    rw [hrowsS, hrowsL]
    exact ht

/-- Concrete instance of the C4 amended theorem on the counterexample
input: the short window's first row survives into the long decode; its
truncated last row does not. -/
theorem c4_amended_witness :
    c4Input.length - 1 ≤ c4Input.length ∧
    decodeMain c4Input (c4Input.length - 1) = .ok [[1, 100], [2, 100]] ∧
    decodeMain c4Input c4Input.length = .ok [[1, 100], [2, 250]] ∧
    ∃ t, ([[1, 100], [2, 100]] : List (List Int)).take
        (([[1, 100], [2, 100]] : List (List Int)).length - 1) ++ t = [[1, 100], [2, 250]] :=
  ⟨by decide, by decide, by decide,
   c4_amended c4Input (c4Input.length - 1) c4Input.length (by decide)
     [[1, 100], [2, 100]] [[1, 100], [2, 250]] (by decide) (by decide)⟩
